import Mathlib

/-!
Verification development for the EcoTrace backend (Python), shallowly embedded
in Lean 4.  The embedding covers the identity-token codec
(`backend/utils/security.py`, token parts of `backend/services/auth_service.py`)
and the history/journey services (`backend/services/auth_service.py`,
`backend/services/database_history_service.py`,
`backend/services/history_service.py`).

Modelling conventions:
* Python strings are `List Char` (`Str`); bytes are `List Nat` (each < 256).
* Machine-independent library calls that the code relies on are implemented
  directly (base64, UTF-8, a flat JSON reader sufficient for the token
  payload dictionaries produced by `json.dumps`).
* The HMAC-SHA256-hexdigest-prefix used to sign tokens and the SHA-256
  hexdigest used to store token hashes are cryptographic primitives; they are
  passed in as function parameters (`hmac16`, `sha256hex`) and theorems state
  the (true) facts they need about them as hypotheses (e.g. a hexdigest
  consists of lowercase hex characters).
* Wall-clock readings, fresh random bytes and fresh UUIDs are explicit
  arguments of the operations that draw them.
* Exact rational arithmetic (`ℚ`) stands in for the Python float results of
  `statistics.mean`; `statistics.mean` on an empty list raises, which is
  modelled by `Option`.
-/

set_option linter.unusedVariables false

namespace EcoTrace

/-- Python `str` values, modelled as lists of characters. -/
abbrev Str := List Char

/-- One decimal digit character, used by `natToString`. -/
def digitChar (d : Nat) : Char := "0123456789".data.getD d '0'

/-- Fuel-indexed digit printer (structural recursion so that the kernel can
evaluate it; the fuel exceeds the digit count). -/
def natToStringAux : Nat → Nat → Str
  | 0, _ => []
  | fuel + 1, m =>
    if m < 10 then [digitChar m]
    else natToStringAux fuel (m / 10) ++ [digitChar (m % 10)]

/-- Models Python `str(n)` for a non-negative integer `n`. -/
def natToString (n : Nat) : Str := natToStringAux (n + 1) n

/-- Decimal digit test (ASCII `0`..`9`). -/
def isAsciiDigit (c : Char) : Bool := decide (48 ≤ c.toNat) && decide (c.toNat ≤ 57)

/-- Numeric value of a decimal digit character. -/
def digitVal (c : Char) : Nat := c.toNat - 48

/-- Split off everything before the first occurrence of `sep`; `none` when
`sep` does not occur.  Helper for the Python `str.split(sep, maxsplit)` model. -/
def splitOnceChar (sep : Char) : Str → Option (Str × Str)
  | [] => none
  | c :: rest =>
    if c = sep then some ([], rest)
    else (splitOnceChar sep rest).map (fun p => (c :: p.1, p.2))

/-- Models Python `s.split(sep, 2)`: at most two splits, remainder kept whole. -/
def pySplit2 (sep : Char) (s : Str) : List Str :=
  match splitOnceChar sep s with
  | none => [s]
  | some (a, r1) =>
    match splitOnceChar sep r1 with
    | none => [a, r1]
    | some (b, r2) => [a, b, r2]

/-- Index of a character in a list (first occurrence), used for base64
alphabet lookup. -/
def idxOf (c : Char) : Str → Nat → Option Nat
  | [], _ => none
  | a :: r, i => if a = c then some i else idxOf c r (i + 1)

/-- The URL-safe base64 alphabet (RFC 4648 §5), as used by
`base64.urlsafe_b64encode` / `urlsafe_b64decode`. -/
def b64urlAlphabet : Str :=
  "ABCDEFGHIJKLMNOPQRSTUVWXYZabcdefghijklmnopqrstuvwxyz0123456789-_".data

/-- The standard base64 alphabet (RFC 4648 §4), as used by `base64.b64encode`. -/
def b64stdAlphabet : Str :=
  "ABCDEFGHIJKLMNOPQRSTUVWXYZabcdefghijklmnopqrstuvwxyz0123456789+/".data

/-- Character for a six-bit value in the given alphabet. -/
def sextetChar (alpha : Str) (n : Nat) : Char := alpha.getD n 'A'

/-- Six-bit value of an alphabet character; `none` for characters outside the
alphabet. -/
def sextetVal (alpha : Str) (c : Char) : Option Nat := idxOf c alpha 0

/-- Base64 encoding of a byte list, without padding characters.  Groups of
three bytes become four characters; a trailing group of one or two bytes
becomes two or three characters. -/
def b64encodeGroups (alpha : Str) : List Nat → Str
  | [] => []
  | [b1] => [sextetChar alpha (b1 / 4), sextetChar alpha (b1 % 4 * 16)]
  | [b1, b2] =>
    [sextetChar alpha (b1 / 4), sextetChar alpha (b1 % 4 * 16 + b2 / 16),
     sextetChar alpha (b2 % 16 * 4)]
  | b1 :: b2 :: b3 :: rest =>
    sextetChar alpha (b1 / 4) :: sextetChar alpha (b1 % 4 * 16 + b2 / 16) ::
    sextetChar alpha (b2 % 16 * 4 + b3 / 64) :: sextetChar alpha (b3 % 64) ::
    b64encodeGroups alpha rest

/-- Number of `=` padding characters base64 appends for a byte list of the
given length. -/
def b64padLen (n : Nat) : Nat := (3 - n % 3) % 3

/-- Models `base64.b64encode(bs).decode()`: standard alphabet, `=`-padded. -/
def b64stdEncodePad (bs : List Nat) : Str :=
  b64encodeGroups b64stdAlphabet bs ++ List.replicate (b64padLen bs.length) '='

/-- Models `base64.urlsafe_b64encode(bs).decode().rstrip('=')` as used when
serializing token payloads: URL-safe alphabet, padding stripped. -/
def b64urlEncodeNoPad (bs : List Nat) : Str := b64encodeGroups b64urlAlphabet bs

/-- Decode base64 quads into bytes.  `=` padding is accepted only in the final
quad.  (The Python decoder with `validate=False` first drops non-alphabet
characters; the tokens produced by this program never contain any, so the
stricter reading agrees on all inputs relevant here.) -/
def b64decodeQuad (alpha : Str) : Str → Option (List Nat)
  | [] => some []
  | c1 :: c2 :: c3 :: c4 :: rest => do
    let s1 ← sextetVal alpha c1
    let s2 ← sextetVal alpha c2
    if rest = [] ∧ c3 = '=' ∧ c4 = '=' then
      some [s1 * 4 + s2 / 16]
    else if rest = [] ∧ c4 = '=' then do
      let s3 ← sextetVal alpha c3
      some [s1 * 4 + s2 / 16, s2 % 16 * 16 + s3 / 4]
    else do
      let s3 ← sextetVal alpha c3
      let s4 ← sextetVal alpha c4
      let tail ← b64decodeQuad alpha rest
      some ((s1 * 4 + s2 / 16) :: (s2 % 16 * 16 + s3 / 4) :: (s3 % 4 * 64 + s4) :: tail)
  | _ => none

/-- Models `base64.urlsafe_b64decode` on a (correctly `=`-padded) input. -/
def b64urlDecodePadded (s : Str) : Option (List Nat) :=
  if s.length % 4 = 0 then b64decodeQuad b64urlAlphabet s else none

/-- UTF-8 encoding of one code point (models `str.encode()` per character). -/
def utf8EncodeChar (n : Nat) : List Nat :=
  if n < 0x80 then [n]
  else if n < 0x800 then [0xC0 + n / 64, 0x80 + n % 64]
  else if n < 0x10000 then [0xE0 + n / 4096, 0x80 + n / 64 % 64, 0x80 + n % 64]
  else [0xF0 + n / 262144, 0x80 + n / 4096 % 64, 0x80 + n / 64 % 64, 0x80 + n % 64]

/-- Models Python `s.encode()` (UTF-8). -/
def utf8Encode (s : Str) : List Nat := (s.map (fun c => utf8EncodeChar c.toNat)).flatten

/-- Worker for `utf8Decode`. The fuel argument only drives the structural
recursion; each step consumes at least one byte, so fuel equal to the input
length (as supplied by `utf8Decode`) is never exhausted. -/
def utf8DecodeAux : Nat → List Nat → Option Str
  | _, [] => some []
  | 0, _ :: _ => none
  | fuel + 1, b :: rest =>
    if b < 0x80 then (utf8DecodeAux fuel rest).map (fun cs => Char.ofNat b :: cs)
    else if b < 0xC2 then none
    else if b < 0xE0 then
      match rest with
      | b2 :: rest2 =>
        if 0x80 ≤ b2 ∧ b2 < 0xC0 then
          (utf8DecodeAux fuel rest2).map
            (fun cs => Char.ofNat ((b - 0xC0) * 64 + (b2 - 0x80)) :: cs)
        else none
      | [] => none
    else if b < 0xF0 then
      match rest with
      | b2 :: b3 :: rest3 =>
        if (0x80 ≤ b2 ∧ b2 < 0xC0) ∧ (0x80 ≤ b3 ∧ b3 < 0xC0) then
          (utf8DecodeAux fuel rest3).map
            (fun cs => Char.ofNat ((b - 0xE0) * 4096 + (b2 - 0x80) * 64 + (b3 - 0x80)) :: cs)
        else none
      | _ => none
    else if b < 0xF5 then
      match rest with
      | b2 :: b3 :: b4 :: rest4 =>
        if (0x80 ≤ b2 ∧ b2 < 0xC0) ∧ (0x80 ≤ b3 ∧ b3 < 0xC0) ∧ (0x80 ≤ b4 ∧ b4 < 0xC0) then
          (utf8DecodeAux fuel rest4).map
            (fun cs =>
              Char.ofNat ((b - 0xF0) * 262144 + (b2 - 0x80) * 4096 +
                (b3 - 0x80) * 64 + (b4 - 0x80)) :: cs)
        else none
      | _ => none
    else none

/-- Models Python `bytes.decode()` (UTF-8, strict): `none` on malformed input.
Continuation bytes must lie in `0x80..0xBF`; the token payloads this program
decodes are pure ASCII, exercising only the first branch. -/
def utf8Decode (bs : List Nat) : Option Str := utf8DecodeAux bs.length bs

/-- JSON scalar values occurring in token payloads. -/
inductive JVal where
  | jstr : Str → JVal
  | jnum : Nat → JVal
deriving DecidableEq, Repr

/-- Lookup in a parsed JSON object, models `dict.get` (the payloads produced
by this program have pairwise distinct keys). -/
def jlookup (obj : List (Str × JVal)) (k : Str) : Option JVal :=
  match obj with
  | [] => none
  | (k', v) :: r => if k' = k then some v else jlookup r k

/-- Parse the body of a JSON string literal after the opening quote, up to the
closing quote.  Escape sequences are not consumed (`none`); the payload
strings this program serializes contain neither quotes nor backslashes. -/
def parseStringBody : Str → Option (Str × Str)
  | [] => none
  | c :: rest =>
    if c = '"' then some ([], rest)
    else if c = '\\' then none
    else (parseStringBody rest).map (fun p => (c :: p.1, p.2))

/-- Parse a non-negative JSON integer (maximal digit run). -/
def parseNat (s : Str) : Option (Nat × Str) :=
  let digits := s.takeWhile isAsciiDigit
  if digits = [] then none
  else some (digits.foldl (fun a c => a * 10 + digitVal c) 0, s.dropWhile isAsciiDigit)

/-- Parse one JSON scalar: a string literal or a non-negative integer. -/
def parseJVal (s : Str) : Option (JVal × Str) :=
  match s with
  | '"' :: rest => (parseStringBody rest).map (fun p => (JVal.jstr p.1, p.2))
  | _ => (parseNat s).map (fun p => (JVal.jnum p.1, p.2))

/-- Parse the comma-separated members of a JSON object after the opening
brace, consuming the closing brace.  `fuel` bounds the number of members. -/
def parseMembers : Nat → Str → Option (List (Str × JVal) × Str)
  | 0, _ => none
  | fuel + 1, s => do
    let (k, s1) ← (match s with | '"' :: r => parseStringBody r | _ => none)
    let s2 ← (match s1 with | ':' :: r => some r | _ => none)
    let (v, s3) ← parseJVal s2
    match s3 with
    | ',' :: r => (parseMembers fuel r).map (fun p => ((k, v) :: p.1, p.2))
    | '\x7d' :: r => some ([(k, v)], r)
    | _ => none

/-- Models `json.loads` on the compact, flat, whitespace-free objects that
`json.dumps(payload, separators=(',', ':'))` produces for token payloads.
Requires the whole input to be consumed, as `json.loads` does. -/
def jsonLoadsFlat (s : Str) : Option (List (Str × JVal)) :=
  match s with
  | '\x7b' :: '\x7d' :: r2 => if r2 = [] then some [] else none
  | '\x7b' :: rest =>
    match parseMembers rest.length rest with
    | some (obj, []) => some obj
    | _ => none
  | _ => none

/-- Models `json.dumps(payload, separators=(',', ':'))` for the anonymous
token payload dict built by `generate_secure_anonymous_token` (insertion
order: `type`, `created`, `random`). -/
def dumpsAnon (created : Nat) (random : Str) : Str :=
  "\x7b\"type\":\"anonymous\",\"created\":".data ++ (natToString created ++
  (",\"random\":\"".data ++ (random ++ "\"\x7d".data)))

/-- Models `json.dumps(payload, separators=(',', ':'))` for the authenticated
token payload dict built by `AuthService.generate_auth_token` (insertion
order: `type`, `user_id`, `created`, `random`). -/
def dumpsAuth (user_id : Str) (created : Nat) (random : Str) : Str :=
  "\x7b\"type\":\"authenticated\",\"user_id\":\"".data ++ (user_id ++
  ("\",\"created\":".data ++ (natToString created ++
  (",\"random\":\"".data ++ (random ++ "\"\x7d".data)))))

/-- One hexadecimal digit (lowercase), as produced by `hexdigest`/`token_hex`. -/
def hexDigit (d : Nat) : Char := "0123456789abcdef".data.getD d '0'

/-- Lowercase hex encoding of a byte list; models `secrets.token_hex(n)`
applied to its underlying `n` random bytes. -/
def hexEncode : List Nat → Str
  | [] => []
  | b :: r => hexDigit (b / 16) :: hexDigit (b % 16) :: hexEncode r

/-- Characters that may appear inside a JSON string field of a token payload
without disturbing the round trip: ASCII below DEL, not `?` (the only ASCII
byte whose base64url sextets can reach the `_` character), and neither `"`
nor `\` (which JSON string literals would escape).  Every string this program
serializes into a payload (`token_hex`, `b64encode` output, generated user
ids) satisfies it. -/
def payloadCharOk (c : Char) : Bool :=
  decide (c.toNat < 127 ∧ c.toNat ≠ 63 ∧ c ≠ '"' ∧ c ≠ '\\')

/-- `security.generate_secure_anonymous_token`, with the drawn randomness
(`randomBytes`, 32 bytes in the source) and the clock reading (`created`)
explicit, and the keyed truncated digest `hmac.new(SECRET_KEY, ·,
sha256).hexdigest()[:16]` abstracted as `hmac16`. -/
def generate_secure_anonymous_token (hmac16 : Str → Str) (created : Nat)
    (randomBytes : List Nat) : Str :=
  let payload_b64 := b64urlEncodeNoPad (utf8Encode (dumpsAnon created (b64stdEncodePad randomBytes)))
  "anon_".data ++ (payload_b64 ++ ('_' :: hmac16 payload_b64))

/-- `AuthService.generate_auth_token`, with the drawn randomness
(`randomBytes`, 16 bytes backing `secrets.token_hex(16)`) and the clock
reading explicit. -/
def generate_auth_token (hmac16 : Str → Str) (user_id : Str) (created : Nat)
    (randomBytes : List Nat) : Str :=
  let payload_b64 := b64urlEncodeNoPad (utf8Encode (dumpsAuth user_id created (hexEncode randomBytes)))
  "auth_".data ++ (payload_b64 ++ ('_' :: hmac16 payload_b64))

/-- The padding step of `validate_token` / `extract_token_info`:
`payload_b64 += '=' * (4 - len % 4)` when that count is not 4. -/
def addB64Padding (p : Str) : Str :=
  let padding := 4 - p.length % 4
  if padding ≠ 4 then p ++ List.replicate padding '=' else p

/-- `security.validate_token`.  Exceptions anywhere in the Python body yield
`False`; here every fallible step returns through `Option` and maps to
`false`. -/
def validate_token (hmac16 : Str → Str) (token : Str) : Bool :=
  if ¬ ("anon_".data.isPrefixOf token ∨ "auth_".data.isPrefixOf token) then false
  else
    match pySplit2 '_' token with
    | [token_type, payload_b64, signature] =>
      if signature ≠ hmac16 payload_b64 then false
      else
        match b64urlDecodePadded (addB64Padding payload_b64) with
        | none => false
        | some bytes =>
          match utf8Decode bytes with
          | none => false
          | some payload_json =>
            match jsonLoadsFlat payload_json with
            | none => false
            | some payload =>
              let expected_type : Str :=
                if token_type = "anon".data then "anonymous".data else "authenticated".data
              if jlookup payload "type".data ≠ some (JVal.jstr expected_type) then false
              else if token_type = "anon".data then
                decide ((jlookup payload "created".data).isSome ∧
                  (jlookup payload "random".data).isSome)
              else
                decide ((jlookup payload "user_id".data).isSome ∧
                  (jlookup payload "created".data).isSome ∧
                  (jlookup payload "random".data).isSome)
    | _ => false

/-- `security.extract_token_info`: re-splits and re-decodes the payload after
`validate_token` succeeds. -/
def extract_token_info (hmac16 : Str → Str) (token : Str) : Option (List (Str × JVal)) :=
  if validate_token hmac16 token then
    match pySplit2 '_' token with
    | _ :: payload_b64 :: _ =>
      match b64urlDecodePadded (addB64Padding payload_b64) with
      | none => none
      | some bytes =>
        match utf8Decode bytes with
        | none => none
        | some payload_json => jsonLoadsFlat payload_json
    | _ => none
  else none

/-- `AuthService.validate_auth_token`: returns the embedded `user_id` of a
well-signed authenticated token, else `none`.  (A failed
`payload.get("user_id")` or a non-string value yields `None`-like behaviour
downstream either way.) -/
def validate_auth_token (hmac16 : Str → Str) (token : Str) : Option Str :=
  if ¬ "auth_".data.isPrefixOf token then none
  else
    match pySplit2 '_' token with
    | [_, payload_b64, signature] =>
      if signature ≠ hmac16 payload_b64 then none
      else
        match b64urlDecodePadded (addB64Padding payload_b64) with
        | none => none
        | some bytes =>
          match utf8Decode bytes with
          | none => none
          | some payload_json =>
            match jsonLoadsFlat payload_json with
            | none => none
            | some payload =>
              if jlookup payload "type".data ≠ some (JVal.jstr "authenticated".data) then none
              else
                match jlookup payload "user_id".data with
                | some (JVal.jstr uid) => some uid
                | _ => none
    | _ => none

/-! ## Data model (`backend/models`, `backend/database/models.py`)

Timestamps are Unix seconds (`Nat`).  The SQLAlchemy `HistoryEntry` /
`ComparisonEntry` rows and the pydantic response models are merged into one
structure each: the conversion performed by `DatabaseHistoryService` is the
field-identical map `user_id ↦ user_session`.  Of the opaque analysis payload
only the fields the services read (`eco_score`, `product_info.name`,
`product_info.category`) are represented. -/

/-- `models.history.AnalysisType`. -/
inductive AnalysisType where
  | product_search
  | barcode_scan
  | url_analysis
  | comparison
deriving DecidableEq, Repr

/-- `models.eco_score.ProductInfo`, restricted to the fields the history and
journey services read. -/
structure ProductInfo where
  name : Str
  category : Option Str := none
deriving DecidableEq, Repr

/-- `models.eco_score.ProductAnalysis`, restricted to the fields the history
and journey services read. -/
structure ProductAnalysis where
  product_info : ProductInfo
  eco_score : Int
deriving DecidableEq, Repr

/-- One analysis history record (`models.history.HistoryEntry`, equally the
`database.models.HistoryEntry` row with `user_id` stored as `user_session`). -/
structure HistoryEntry where
  id : Str
  timestamp : Nat
  analysis_type : AnalysisType
  query : Str
  analysis : ProductAnalysis
  user_session : Option Str := none
  is_comparison_analysis : Bool := false
deriving DecidableEq, Repr

/-- One comparison record (`models.history.ComparisonHistoryEntry`, equally
the `database.models.ComparisonEntry` row). -/
structure ComparisonEntry where
  id : Str
  timestamp : Nat
  products : List ProductAnalysis
  comparison_notes : Option Str := none
  user_session : Option Str := none
deriving DecidableEq, Repr

/-- `database.models.User` row. -/
structure DbUser where
  id : Str
  token_hash : Str
  is_anonymous : Bool
  created_at : Nat
  last_active : Nat
  email : Option Str := none
  password_hash : Option Str := none
  name : Option Str := none
  email_verified : Bool := false
deriving DecidableEq, Repr

/-- The persistent store: the three tables.  Row order is insertion order,
which is what unordered SQLAlchemy `.all()` reads return under SQLite. -/
structure Db where
  users : List DbUser := []
  history_entries : List HistoryEntry := []
  comparison_entries : List ComparisonEntry := []
deriving DecidableEq, Repr

/-- `models.history.HistoryFilter` (pydantic defaults included). -/
structure HistoryFilter where
  analysis_type : Option AnalysisType := none
  category : Option Str := none
  min_eco_score : Option Int := none
  max_eco_score : Option Int := none
  date_from : Option Nat := none
  date_to : Option Nat := none
  limit : Nat := 50
  offset : Nat := 0
deriving DecidableEq, Repr

/-- `models.history.HistoryResponse`. -/
structure HistoryResponse where
  success : Bool := true
  entries : List HistoryEntry := []
  comparisons : List ComparisonEntry := []
  total_count : Nat := 0
  has_more : Bool := false
deriving DecidableEq, Repr

/-- `models.history.JourneyStats` with its field defaults (note the default
`worst_eco_score = 100`). -/
structure JourneyStats where
  total_analyses : Nat := 0
  total_comparisons : Nat := 0
  average_eco_score : ℚ := 0
  best_eco_score : Int := 0
  worst_eco_score : Int := 100
  favorite_categories : List Str := []
  improvement_trend : ℚ := 0
  days_active : Nat := 0
  first_analysis_date : Option Nat := none
  last_analysis_date : Option Nat := none
deriving DecidableEq, Repr

/-- `models.history.CategoryStats`. -/
structure CategoryStats where
  category : Str
  count : Nat
  average_score : ℚ
  best_score : Int
  worst_score : Int
  trend : ℚ
deriving DecidableEq, Repr

/-- `models.history.TimelineEntry`. -/
structure TimelineEntry where
  date : Nat
  eco_score : Int
  product_name : Str
  category : Option Str := none
  analysis_type : AnalysisType
deriving DecidableEq, Repr

/-- `models.history.EcoJourney`. -/
structure EcoJourney where
  stats : JourneyStats := {}
  recent_analyses : List HistoryEntry := []
  recent_comparisons : List ComparisonEntry := []
  category_breakdown : List CategoryStats := []
  timeline : List TimelineEntry := []
  milestones : List Str := []
deriving DecidableEq, Repr

/-- `models.history.JourneyResponse`. -/
structure JourneyResponse where
  success : Bool := true
  journey : EcoJourney
  insights : List Str := []
deriving DecidableEq, Repr

/-! ## Shared helpers -/

/-- Models Python `str.lower()` (the emails handled here are ASCII). -/
def pyLower (s : Str) : Str := s.map Char.toLower

/-- Accumulator worker for `pySplitAll`. -/
def splitAllAux (sep : Char) : Str → Str → List Str
  | [], acc => [acc.reverse]
  | c :: rest, acc =>
    if c = sep then acc.reverse :: splitAllAux sep rest []
    else splitAllAux sep rest (c :: acc)

/-- Models `str.split(sep)` without maxsplit. -/
def pySplitAll (sep : Char) (s : Str) : List Str := splitAllAux sep s []

/-- `statistics.mean`: raises (here `none`) on an empty list. -/
def pymean (l : List ℚ) : Option ℚ :=
  if l = [] then none else some (l.sum / l.length)

/-- Python truthiness of an optional string (`None` and `""` are falsy). -/
def catTruthy : Option Str → Bool
  | none => false
  | some s => decide (s ≠ [])

/-- Occurrence count by decidable equality. -/
def countEq {α} [DecidableEq α] (l : List α) (a : α) : Nat :=
  l.countP (fun b => decide (b = a))

/-- Distinct elements in first-encounter order (the key order of a Python
`dict` / `Counter` built by insertion). -/
def uniqueInOrder {α} [DecidableEq α] (l : List α) : List α :=
  l.foldl (fun acc a => if a ∈ acc then acc else acc ++ [a]) []

/-- Models `Counter(l).most_common(k)` keys: distinct elements sorted by
descending count, ties kept in first-encounter order (insertion sort is
stable). -/
def mostCommon {α} [DecidableEq α] (k : Nat) (l : List α) : List α :=
  (List.insertionSort (fun a b => countEq l b ≤ countEq l a) (uniqueInOrder l)).take k

/-- Newest-first order on history entries (`ORDER BY timestamp DESC`,
`sort(key=timestamp, reverse=True)`); ties keep insertion order via stable
sorting. -/
def entryAfter (a b : HistoryEntry) : Prop := b.timestamp ≤ a.timestamp

instance : DecidableRel entryAfter := fun a b => inferInstanceAs (Decidable (_ ≤ _))

instance : IsTotal HistoryEntry entryAfter :=
  ⟨fun a b => le_total b.timestamp a.timestamp⟩

instance : IsTrans HistoryEntry entryAfter :=
  ⟨fun _ _ _ h1 h2 => le_trans h2 h1⟩

/-- Newest-first order on comparison entries. -/
def compAfter (a b : ComparisonEntry) : Prop := b.timestamp ≤ a.timestamp

instance : DecidableRel compAfter := fun a b => inferInstanceAs (Decidable (_ ≤ _))

/-- Oldest-first order on history entries (Python stable sort by timestamp). -/
def entryBefore (a b : HistoryEntry) : Prop := a.timestamp ≤ b.timestamp

instance : DecidableRel entryBefore := fun a b => inferInstanceAs (Decidable (_ ≤ _))

/-- Oldest-first order on timeline entries. -/
def tlBefore (a b : TimelineEntry) : Prop := a.date ≤ b.date

instance : DecidableRel tlBefore := fun a b => inferInstanceAs (Decidable (_ ≤ _))

/-- Descending order by average score on category stats
(`sorted(key=average_score, reverse=True)`). -/
def csByAvgDesc (a b : CategoryStats) : Prop := b.average_score ≤ a.average_score

instance : DecidableRel csByAvgDesc := fun a b => inferInstanceAs (Decidable (_ ≤ _))

/-- Descending order by count on category stats
(`sort(key=count, reverse=True)`). -/
def csByCountDesc (a b : CategoryStats) : Prop := b.count ≤ a.count

instance : DecidableRel csByCountDesc := fun a b => inferInstanceAs (Decidable (_ ≤ _))

/-- In-place update of the user row with the given id (SQLAlchemy mutates the
fetched row and commits). -/
def updateUser (users : List DbUser) (uid : Str) (f : DbUser → DbUser) : List DbUser :=
  users.map (fun u => if u.id = uid then f u else u)

/-! ## `AuthService` (`backend/services/auth_service.py`) -/

/-- `AuthService.hash_password`, with the drawn salt (64 hex chars backing
`secrets.token_hex(32)`) explicit. -/
def hash_password (sha256hex : Str → Str) (password salt : Str) : Str :=
  salt ++ (':' :: sha256hex (password ++ salt))

/-- `AuthService.verify_password`: splits the stored form on `:`; a malformed
stored form (not exactly two parts) raises `ValueError`, caught to `False`. -/
def verify_password (sha256hex : Str → Str) (password stored_hash : Str) : Bool :=
  match pySplitAll ':' stored_hash with
  | [salt, password_hash] => decide (password_hash = sha256hex (password ++ salt))
  | _ => false

/-- `AuthService.register_user`.  The drawn randomness (`userIdBytes` backing
`secrets.token_hex(8)`, `saltBytes` backing the password salt,
`tokenRandomBytes` backing the token nonce) and the clock are explicit.
The source commits the new user row with `token_hash=""` first and only then
generates the token and commits the hash; `secondCommitFails` injects a
storage failure at that second commit (the generic `except` path: the first
commit is already durable, `rollback` does not undo it). -/
def register_user (sha256hex hmac16 : Str → Str) (db : Db) (email password : Str)
    (name : Option Str) (userIdBytes saltBytes tokenRandomBytes : List Nat) (now : Nat)
    (secondCommitFails : Bool) : Db × (Bool × Str × Option Str) :=
  match db.users.find? (fun u => decide (u.email = some (pyLower email))) with
  | some _ => (db, (false, "Email already registered".data, none))
  | none =>
    if password.length < 6 then
      (db, (false, "Password must be at least 6 characters".data, none))
    else
      let user_id := "user_".data ++ hexEncode userIdBytes
      let password_hash := hash_password sha256hex password (hexEncode saltBytes)
      let user : DbUser :=
        { id := user_id, token_hash := [], is_anonymous := false,
          created_at := now, last_active := now,
          email := some (pyLower email), password_hash := some password_hash,
          name := name, email_verified := false }
      let db1 : Db := { db with users := db.users ++ [user] }
      if secondCommitFails then
        (db1, (false, "Registration failed: storage error".data, none))
      else
        let auth_token := generate_auth_token hmac16 user_id now tokenRandomBytes
        let db2 : Db := { db1 with users := db.users ++ [{ user with token_hash := sha256hex auth_token }] }
        (db2, (true, "Account created successfully".data, some auth_token))

/-- `AuthService.login_user`.  Note that the source assigns `user.last_active`
the freshly re-queried value of itself, so `last_active` is in fact left
unchanged by a login. -/
def login_user (sha256hex hmac16 : Str → Str) (db : Db) (email password : Str)
    (tokenRandomBytes : List Nat) (now : Nat) : Db × (Bool × Str × Option Str) :=
  match db.users.find? (fun u => decide (u.email = some (pyLower email))) with
  | none => (db, (false, "Invalid email or password".data, none))
  | some user =>
    if user.is_anonymous then (db, (false, "Invalid email or password".data, none))
    else
      match user.password_hash with
      | none => (db, (false, "Login failed: missing password hash".data, none))
      | some ph =>
        if ¬ verify_password sha256hex password ph then
          (db, (false, "Invalid email or password".data, none))
        else
          let auth_token := generate_auth_token hmac16 user.id now tokenRandomBytes
          let refetched := (db.users.find? (fun u => decide (u.id = user.id))).getD user
          let users' := updateUser db.users user.id
            (fun u => { u with token_hash := sha256hex auth_token,
                               last_active := refetched.last_active })
          let db' : Db := { db with users := users' }
          (db', (true, "Login successful".data, some auth_token))

/-- `AuthService.get_user_by_token`: authenticated tokens resolve by the
embedded `user_id`; anonymous tokens resolve by the stored token hash. -/
def get_user_by_token (sha256hex hmac16 : Str → Str) (db : Db) (token : Str) :
    Option DbUser :=
  let anonLookup : Option DbUser :=
    if validate_token hmac16 token then
      match db.users.find? (fun u => decide (u.token_hash = sha256hex token)) with
      | some u => if u.is_anonymous then some u else none
      | none => none
    else none
  match validate_auth_token hmac16 token with
  | some user_id =>
    if user_id ≠ [] then
      match db.users.find? (fun u => decide (u.id = user_id)) with
      | some u => if ¬ u.is_anonymous then some u else anonLookup
      | none => anonLookup
    else anonLookup
  | none => anonLookup

/-- `AuthService.is_authenticated_user`. -/
def is_authenticated_user (sha256hex hmac16 : Str → Str) (db : Db) (token : Str) : Bool :=
  match get_user_by_token sha256hex hmac16 db token with
  | some u => !u.is_anonymous
  | none => false

/-! ## `DatabaseHistoryService` (`backend/services/database_history_service.py`) -/

/-- `DatabaseHistoryService.get_or_create_user`; `none` models the
`ValueError` raised on an invalid token.  `freshIdBytes` backs
`uuid.uuid4().hex[:12]` for a newly created user. -/
def get_or_create_user (sha256hex hmac16 : Str → Str) (db : Db) (user_token : Str)
    (freshIdBytes : List Nat) (now : Nat) : Option (Db × DbUser) :=
  if ¬ validate_token hmac16 user_token then none
  else
    let token_hash := sha256hex user_token
    match db.users.find? (fun u => decide (u.token_hash = token_hash)) with
    | none =>
      let user : DbUser :=
        { id := "user_".data ++ hexEncode freshIdBytes, token_hash := token_hash,
          is_anonymous := true, created_at := now, last_active := now }
      some ({ db with users := db.users ++ [user] }, user)
    | some user =>
      some ({ db with users := updateUser db.users user.id (fun u => { u with last_active := now }) },
            { user with last_active := now })

/-- `DatabaseHistoryService.save_analysis`: history is recorded only for
authenticated users; `entry_id` backs `uuid.uuid4()`. -/
def save_analysis (sha256hex hmac16 : Str → Str) (db : Db) (user_token query : Str)
    (analysis : ProductAnalysis) (analysis_type : AnalysisType)
    (is_comparison_analysis : Bool) (entry_id : Str) (now : Nat) : Db × Option Str :=
  if ¬ is_authenticated_user sha256hex hmac16 db user_token then (db, none)
  else
    match get_user_by_token sha256hex hmac16 db user_token with
    | none => (db, none)
    | some user =>
      let entry : HistoryEntry :=
        { id := entry_id, timestamp := now, analysis_type := analysis_type,
          query := query, analysis := analysis, user_session := some user.id,
          is_comparison_analysis := is_comparison_analysis }
      ({ db with users := updateUser db.users user.id (fun u => { u with last_active := now }),
                 history_entries := db.history_entries ++ [entry] },
       some entry_id)

/-- `DatabaseHistoryService.get_history`.  Faithful port: of the filter
fields only `analysis_type`, `date_from` and `date_to` are applied to the
entry query (the source never reads `category`, `min_eco_score` or
`max_eco_score` here). -/
def dbGetHistory (sha256hex hmac16 : Str → Str) (db : Db) (user_token : Str)
    (filters : Option HistoryFilter) : HistoryResponse :=
  if ¬ is_authenticated_user sha256hex hmac16 db user_token then {}
  else
    match get_user_by_token sha256hex hmac16 db user_token with
    | none => {}
    | some user =>
      let q0 := db.history_entries.filter (fun e => decide (e.user_session = some user.id))
      let q1 :=
        match filters with
        | none => q0
        | some f =>
          let a := match f.analysis_type with
            | some t => q0.filter (fun e => decide (e.analysis_type = t))
            | none => q0
          let b := match f.date_from with
            | some d => a.filter (fun e => decide (d ≤ e.timestamp))
            | none => a
          match f.date_to with
          | some d => b.filter (fun e => decide (e.timestamp ≤ d))
          | none => b
      let total_count := q1.length
      let limit := match filters with
        | some f => if f.limit ≠ 0 then f.limit else 20
        | none => 20
      let offset := match filters with
        | some f => f.offset
        | none => 0
      let entries := ((List.insertionSort entryAfter q1).drop offset).take limit
      let comps0 := db.comparison_entries.filter (fun c => decide (c.user_session = some user.id))
      let comps1 :=
        match filters with
        | none => comps0
        | some f =>
          let a := match f.date_from with
            | some d => comps0.filter (fun c => decide (d ≤ c.timestamp))
            | none => comps0
          match f.date_to with
          | some d => a.filter (fun c => decide (c.timestamp ≤ d))
          | none => a
      let comparisons := (List.insertionSort compAfter comps1).take 10
      { entries := entries, comparisons := comparisons, total_count := total_count,
        has_more := decide (offset + entries.length < total_count) }

/-- `DatabaseHistoryService._calculate_journey_stats`.  `none` propagates a
raised `StatisticsError`/empty-`max` error (none occurs on the guarded
paths). -/
def dbCalculateJourneyStats (entries : List HistoryEntry)
    (comparisons : List ComparisonEntry) : Option JourneyStats :=
  if entries = [] then some {}
  else
    let regular_entries := entries.filter (fun e => !e.is_comparison_analysis)
    if regular_entries = [] then some {}
    else do
      let eco_scores : List Int := regular_entries.map (fun e => e.analysis.eco_score)
      let qscores : List ℚ := eco_scores.map (fun (n : Int) => (n : ℚ))
      let improvement_trend ←
        if 2 ≤ eco_scores.length then do
          let w := Nat.min 5 (eco_scores.length / 2)
          let recent_scores := qscores.take w
          let early_scores := qscores.drop (qscores.length - w)
          if recent_scores ≠ [] ∧ early_scores ≠ [] then do
            let mr ← pymean recent_scores
            let me_ ← pymean early_scores
            pure (mr - me_)
          else pure (0 : ℚ)
        else pure (0 : ℚ)
      let categories := regular_entries.filterMap
        (fun e => if catTruthy e.analysis.product_info.category
                  then e.analysis.product_info.category else none)
      let favorite_categories := mostCommon 5 categories
      let timestamps := entries.map (·.timestamp)
      let first_date ← timestamps.min?
      let last_date ← timestamps.max?
      let days_active := (last_date - first_date) / 86400 + 1
      let average ← pymean qscores
      let best ← eco_scores.max?
      let worst ← eco_scores.min?
      let rts := regular_entries.map (·.timestamp)
      pure { total_analyses := regular_entries.length,
             total_comparisons := comparisons.length,
             average_eco_score := average,
             best_eco_score := best,
             worst_eco_score := worst,
             improvement_trend := improvement_trend,
             favorite_categories := favorite_categories,
             days_active := days_active,
             first_analysis_date := rts.min?,
             last_analysis_date := rts.max? }

/-- `DatabaseHistoryService._calculate_category_stats`: groups the
non-comparison entries with a truthy category by category (first-appearance
key order), computes per-group stats and a first-half-minus-second-half
trend, and sorts descending by average score. -/
def dbCalculateCategoryStats (entries : List HistoryEntry) : Option (List CategoryStats) := do
  let regular := entries.filter (fun e => !e.is_comparison_analysis)
  let withCat := regular.filter (fun e => catTruthy e.analysis.product_info.category)
  let keys := uniqueInOrder (withCat.filterMap (fun e => e.analysis.product_info.category))
  let stats ← keys.mapM (fun category => do
    let group := withCat.filter (fun e => decide (e.analysis.product_info.category = some category))
    let scores : List Int := group.map (fun e => e.analysis.eco_score)
    let qs : List ℚ := scores.map (fun (n : Int) => (n : ℚ))
    let trend ←
      if 2 ≤ scores.length then do
        let mid := scores.length / 2
        let recent_avg ← pymean (qs.take mid)
        let older_avg ← pymean (qs.drop mid)
        pure (recent_avg - older_avg)
      else pure (0 : ℚ)
    let average ← pymean qs
    let best ← scores.max?
    let worst ← scores.min?
    pure { category := category, count := group.length, average_score := average,
           best_score := best, worst_score := worst, trend := trend : CategoryStats })
  pure (List.insertionSort csByAvgDesc stats)

/-- Python `sep.join(strs)`. -/
def pyJoin (sep : Str) : List Str → Str
  | [] => []
  | [x] => x
  | x :: r => x ++ sep ++ pyJoin sep r

/-- `DatabaseHistoryService._generate_timeline`: one timeline entry per
non-comparison analysis plus one per comparison (mean product score truncated
with `int(...)`, synthesized label), sorted ascending by date.  A comparison
with an empty product list would raise `ZeroDivisionError` (`none`). -/
def dbGenerateTimeline (entries : List HistoryEntry)
    (comparisons : List ComparisonEntry) : Option (List TimelineEntry) := do
  let regular := entries.filter (fun e => !e.is_comparison_analysis)
  let t1 := regular.map (fun e =>
    { date := e.timestamp, eco_score := e.analysis.eco_score,
      product_name := e.analysis.product_info.name,
      category := e.analysis.product_info.category,
      analysis_type := e.analysis_type : TimelineEntry })
  let t2 ← comparisons.mapM (fun c => do
    if c.products.length = 0 then none
    else
      let avg : ℚ := ((c.products.map (fun p => (p.eco_score : ℚ))).sum) / c.products.length
      let product_names := c.products.map (·.product_info.name)
      some { date := c.timestamp, eco_score := ⌊avg⌋,
             product_name := "Compared ".data ++ pyJoin ", ".data (product_names.take 2) ++
               (if 2 < product_names.length then "...".data else []),
             category := none, analysis_type := AnalysisType.comparison : TimelineEntry })
  pure (List.insertionSort tlBefore (t1 ++ t2))

/-- `DatabaseHistoryService.get_journey`: authenticated-only; milestones are
never computed here, so `EcoJourney.milestones` keeps its empty default. -/
def dbGetJourney (sha256hex hmac16 : Str → Str) (db : Db) (user_token : Str) :
    Option JourneyResponse :=
  if ¬ is_authenticated_user sha256hex hmac16 db user_token then some { journey := {} }
  else
    match get_user_by_token sha256hex hmac16 db user_token with
    | none => some { journey := {} }
    | some user =>
      let entries := db.history_entries.filter (fun e => decide (e.user_session = some user.id))
      let comparisons := db.comparison_entries.filter (fun c => decide (c.user_session = some user.id))
      if entries = [] then some { journey := {} }
      else do
        let stats ← dbCalculateJourneyStats entries comparisons
        let category_breakdown ← dbCalculateCategoryStats entries
        let timeline ← dbGenerateTimeline entries comparisons
        pure { journey := { stats := stats, category_breakdown := category_breakdown,
                            timeline := timeline } }

/-! ## In-memory `HistoryService` (`backend/services/history_service.py`) -/

/-- `HistoryService._filter_entries`: applies user session, analysis type,
category, eco-score range (Python truthiness: a 0 bound is ignored) and date
range filters, then sorts newest-first. -/
def memFilterEntries (entries : List HistoryEntry) (f : HistoryFilter)
    (user_session : Option Str) : List HistoryEntry :=
  let l0 := match user_session with
    | some us => if us ≠ [] then entries.filter (fun e => decide (e.user_session = some us)) else entries
    | none => entries
  let l1 := match f.analysis_type with
    | some t => l0.filter (fun e => decide (e.analysis_type = t))
    | none => l0
  let l2 := match f.category with
    | some c => if c ≠ [] then l1.filter (fun e => decide (e.analysis.product_info.category = some c)) else l1
    | none => l1
  let l3 := match f.min_eco_score with
    | some v => if v ≠ 0 then l2.filter (fun e => decide (v ≤ e.analysis.eco_score)) else l2
    | none => l2
  let l4 := match f.max_eco_score with
    | some v => if v ≠ 0 then l3.filter (fun e => decide (e.analysis.eco_score ≤ v)) else l3
    | none => l3
  let l5 := match f.date_from with
    | some d => l4.filter (fun e => decide (d ≤ e.timestamp))
    | none => l4
  let l6 := match f.date_to with
    | some d => l5.filter (fun e => decide (e.timestamp ≤ d))
    | none => l5
  List.insertionSort entryAfter l6

/-- `HistoryService.get_history`: filter, then paginate. -/
def memGetHistory (entries : List HistoryEntry) (f : HistoryFilter)
    (user_session : Option Str) : List HistoryEntry × Nat :=
  let filtered := memFilterEntries entries f user_session
  (( filtered.drop f.offset).take ((f.offset + f.limit) - f.offset), filtered.length)

/-- `HistoryService._calculate_journey_stats`: no comparison-flag exclusion;
trend compares second half against first half and needs at least 4 scores. -/
def memCalculateJourneyStats (entries : List HistoryEntry)
    (comparisons : List ComparisonEntry) : Option JourneyStats :=
  if entries = [] then some {}
  else do
    let eco_scores : List Int := entries.map (fun e => e.analysis.eco_score)
    let qscores : List ℚ := eco_scores.map (fun (n : Int) => (n : ℚ))
    let improvement_trend ←
      if 4 ≤ eco_scores.length then do
        let mid := eco_scores.length / 2
        let first_half_avg ← pymean (qscores.take mid)
        let second_half_avg ← pymean (qscores.drop mid)
        pure (second_half_avg - first_half_avg)
      else pure (0 : ℚ)
    let categories := entries.filterMap
      (fun e => if catTruthy e.analysis.product_info.category
                then e.analysis.product_info.category else none)
    let favorite_categories := mostCommon 5 categories
    let timestamps := entries.map (·.timestamp)
    let first_date ← timestamps.min?
    let last_date ← timestamps.max?
    let average ← pymean qscores
    let best ← eco_scores.max?
    let worst ← eco_scores.min?
    pure { total_analyses := entries.length,
           total_comparisons := comparisons.length,
           average_eco_score := average,
           best_eco_score := best,
           worst_eco_score := worst,
           favorite_categories := favorite_categories,
           improvement_trend := improvement_trend,
           days_active := (last_date - first_date) / 86400 + 1,
           first_analysis_date := some first_date,
           last_analysis_date := some last_date }

/-- `HistoryService._calculate_category_stats`: groups every entry (missing
or empty category becomes `"Unknown"`), trend compares the second half
against the first half after a stable sort by timestamp, output sorted
descending by count. -/
def memCalculateCategoryStats (entries : List HistoryEntry) : Option (List CategoryStats) := do
  let key := fun (e : HistoryEntry) =>
    match e.analysis.product_info.category with
    | some s => if s ≠ [] then s else "Unknown".data
    | none => "Unknown".data
  let keys := uniqueInOrder (entries.map key)
  let stats ← keys.mapM (fun category => do
    let group := entries.filter (fun e => decide (key e = category))
    let scores : List Int := group.map (fun e => e.analysis.eco_score)
    let qs : List ℚ := scores.map (fun (n : Int) => (n : ℚ))
    let trend ←
      if 2 ≤ group.length then do
        let sorted_group := List.insertionSort entryBefore group
        let sqs : List ℚ := sorted_group.map (fun e => (e.analysis.eco_score : ℚ))
        let mid := sorted_group.length / 2
        if sqs.take mid ≠ [] ∧ sqs.drop mid ≠ [] then do
          let f ← pymean (sqs.take mid)
          let s ← pymean (sqs.drop mid)
          pure (s - f)
        else pure (0 : ℚ)
      else pure (0 : ℚ)
    let average ← pymean qs
    let best ← scores.max?
    let worst ← scores.min?
    pure { category := category, count := scores.length, average_score := average,
           best_score := best, worst_score := worst, trend := trend : CategoryStats })
  pure (List.insertionSort csByCountDesc stats)

/-- `HistoryService._generate_milestones`: the deterministic set of
threshold-triggered badges, recomputed from the stats on every call. -/
def memGenerateMilestones (stats : JourneyStats) (entries : List HistoryEntry) : List Str :=
  (if 1 ≤ stats.total_analyses then ["🎯 First Analysis Complete!".data] else []) ++
  (if 10 ≤ stats.total_analyses then ["🔥 10 Products Analyzed!".data] else []) ++
  (if 50 ≤ stats.total_analyses then ["🌟 Eco Explorer - 50 Analyses!".data] else []) ++
  (if 100 ≤ stats.total_analyses then ["🏆 Eco Champion - 100 Analyses!".data] else []) ++
  (if 90 ≤ stats.best_eco_score then ["💚 Found an Eco Superstar (90+ score)!".data] else []) ++
  (if 70 ≤ stats.average_eco_score then ["🌱 Eco-Conscious Choices (70+ avg score)!".data] else []) ++
  (if 10 < stats.improvement_trend then ["📈 Great Progress - Improving choices!".data] else []) ++
  (if 5 ≤ stats.favorite_categories.length then ["🎨 Category Explorer - 5+ categories!".data] else []) ++
  (if 7 ≤ stats.days_active then ["⭐ Week-long Journey!".data] else []) ++
  (if 30 ≤ stats.days_active then ["🗓️ Month-long Commitment!".data] else [])

/-! ## Concrete instantiations used by witnesses and counterexamples

`hmacConst` and `shaTag` instantiate the abstract digest parameters: any
fixed-output signing function is consistent between generation and
validation, and the prefix-tagging hash is injective and colon-free like a
hexdigest.  The scenario constants below drive the end-to-end
register/login/save flows through the service definitions themselves. -/

/-- A concrete signing function for witnesses (constant 16 hex characters). -/
def hmacConst : Str → Str := fun _ => "0123456789abcdef".data

/-- A concrete storage-hash function for witnesses: injective, colon-free
tagging. -/
def shaTag : Str → Str := fun s => 'H' :: s

/-- Sample analysis payload with a given score and category. -/
def mkPA (score : Int) (cat : Option Str) : ProductAnalysis :=
  { product_info := { name := "P".data, category := cat }, eco_score := score }

/-- Sample history entry. -/
def mkEntry (i : Nat) (score : Int) (cat : Option Str) (flag : Bool) (us : Option Str) :
    HistoryEntry :=
  { id := natToString i, timestamp := 1000 + i, analysis_type := AnalysisType.product_search,
    query := "q".data, analysis := mkPA score cat, user_session := us,
    is_comparison_analysis := flag }

/-- Registration flow on an empty store (drives the real `register_user`). -/
def regResult : Db × (Bool × Str × Option Str) :=
  register_user shaTag hmacConst {} "Eco@Example.com".data "hunter2".data none
    [1, 2] [3] [4] 100 false

/-- Store after registration. -/
def dbReg : Db := regResult.1

/-- Token issued at registration. -/
def tokReg : Str := (regResult.2.2.2).getD []

/-- The user row as stored by the registration flow. -/
def regUser : DbUser :=
  dbReg.users.getD 0
    { id := [], token_hash := [], is_anonymous := true, created_at := 0, last_active := 0 }

/-- The stored password hash of the registered user. -/
def phReg : Str := hash_password shaTag "hunter2".data (hexEncode [3])

/-- Login flow after registration (drives the real `login_user`). -/
def loginResult : Db × (Bool × Str × Option Str) :=
  login_user shaTag hmacConst dbReg "eco@example.com".data "hunter2".data [9] 200

/-- Store after login. -/
def dbLogin : Db := loginResult.1

/-- Token issued at login. -/
def tokLogin : Str := (loginResult.2.2.2).getD []

/-- The registered user id (`user_` + hex of the drawn id bytes). -/
def uidReg : Str := "user_0102".data

/-- The user row as stored after the login flow. -/
def loginUser : DbUser :=
  dbLogin.users.getD 0
    { id := [], token_hash := [], is_anonymous := true, created_at := 0, last_active := 0 }

/-- Three-entry history with eco scores 30, 55, 80 and categories A, B, A,
owned by the registered user (the filtering example of the specification). -/
def threeEntries : List HistoryEntry :=
  [mkEntry 1 30 (some "A".data) false (some uidReg),
   mkEntry 2 55 (some "B".data) false (some uidReg),
   mkEntry 3 80 (some "A".data) false (some uidReg)]

/-- Store holding the three filtering-example entries. -/
def dbThree : Db := { users := dbLogin.users, history_entries := threeEntries }

/-- A `min_eco_score = 50` filter. -/
def minFilter : HistoryFilter := { min_eco_score := some 50 }

/-- A `category = A` filter. -/
def catFilter : HistoryFilter := { category := some "A".data }

/-- Ten analyses, none scoring at least 90, owned by the registered user. -/
def tenEntries : List HistoryEntry :=
  (List.range 10).map (fun i => mkEntry (i + 1) 50 (some "A".data) false (some uidReg))

/-- Store holding the ten-analyses milestone example. -/
def dbTen : Db := { users := dbLogin.users, history_entries := tenEntries }

/-- Four chronological entries with scores 10, 20, 30, 40 (same category). -/
def fourEntries : List HistoryEntry :=
  [mkEntry 1 10 (some "A".data) false none, mkEntry 2 20 (some "A".data) false none,
   mkEntry 3 30 (some "A".data) false none, mkEntry 4 40 (some "A".data) false none]

/-- Two chronological entries with scores 10 then 90 (an improving user). -/
def twoEntries : List HistoryEntry :=
  [mkEntry 1 10 (some "A".data) false none, mkEntry 2 90 (some "A".data) false none]

/-- A concrete valid anonymous token. -/
def anonTok : Str := generate_secure_anonymous_token hmacConst 1700000000 (List.replicate 32 7)

/-- First `get_or_create_user` call on an empty store with the anonymous
token. -/
def gocResult : Option (Db × DbUser) :=
  get_or_create_user shaTag hmacConst {} anonTok [1, 2, 3, 4, 5, 6] 100

/-- A placeholder user row (the `getD` default below, never selected). -/
def dummyUser : DbUser :=
  { id := [], token_hash := [], is_anonymous := true, created_at := 0, last_active := 0 }

/-- Store after the first `get_or_create_user` call. -/
def gocDb : Db := (gocResult.getD ({}, dummyUser)).1

/-- User created by the first `get_or_create_user` call. -/
def gocUser : DbUser := (gocResult.getD ({}, dummyUser)).2

/-! ## Theorems -/

set_option maxRecDepth 100000

/-- `statistics.mean` on a non-empty list is its sum over its length. -/
theorem pymean_ne_nil (l : List ℚ) (h : l ≠ []) : pymean l = some (l.sum / l.length) :=
  if_neg h

/-- A positive-length prefix of a non-empty list is non-empty. -/
theorem take_ne_nil_of {α} (l : List α) (n : Nat) (hn : n ≠ 0) (hl : l ≠ []) :
    l.take n ≠ [] := by
  intro hemp
  rcases List.take_eq_nil_iff.mp hemp with h | h
  · exact hn h
  · exact hl h

/-- Dropping fewer elements than the length leaves a non-empty list. -/
theorem drop_ne_nil_of {α} (l : List α) (n : Nat) (hn : n < l.length) :
    l.drop n ≠ [] := by
  apply List.ne_nil_of_length_pos
  rw [List.length_drop]
  omega

/-- Claim C10, amended: when no entry is comparison-flagged, the in-memory
and database journey statistics agree on every `JourneyStats` field except
`improvement_trend` (whose formulas differ: second-half minus first-half with
a threshold of 4 entries versus first-window minus last-window with window
`min(5, n/2)`); with comparison-flagged entries present, and for the category
breakdowns (different bucketing of missing categories, trend formula and sort
key), the services disagree in general. -/
theorem C10_stats_agree_except_trend (entries : List HistoryEntry) (comps : List ComparisonEntry)
    (h : ∀ e ∈ entries, e.is_comparison_analysis = false) :
    ∃ m d, memCalculateJourneyStats entries comps = some m ∧
      dbCalculateJourneyStats entries comps = some d ∧
      m.total_analyses = d.total_analyses ∧
      m.total_comparisons = d.total_comparisons ∧
      m.average_eco_score = d.average_eco_score ∧
      m.best_eco_score = d.best_eco_score ∧
      m.worst_eco_score = d.worst_eco_score ∧
      m.favorite_categories = d.favorite_categories ∧
      m.days_active = d.days_active ∧
      m.first_analysis_date = d.first_analysis_date ∧
      m.last_analysis_date = d.last_analysis_date := by
  cases entries with
  | nil =>
    exact ⟨{}, {}, rfl, rfl, rfl, rfl, rfl, rfl, rfl, rfl, rfl, rfl, rfl⟩
  | cons e0 rest =>
    have hfilter : (e0 :: rest).filter (fun e => !e.is_comparison_analysis) = e0 :: rest :=
      List.filter_eq_self.mpr (fun a ha => by simp [h a ha])
    simp only [memCalculateJourneyStats, dbCalculateJourneyStats, hfilter,
      if_neg (List.cons_ne_nil e0 rest)]
    simp only [List.map_cons, List.length_cons, List.length_map, List.min?_cons,
      List.max?_cons, Option.pure_def, Option.some_bind,
      pymean_ne_nil _ (List.cons_ne_nil _ _)]
    by_cases h2 : 2 ≤ rest.length + 1
    · rw [if_pos h2]
      have hw0 : 0 < Nat.min 5 ((rest.length + 1) / 2) :=
        lt_min (by omega) (by omega)
      have hw : Nat.min 5 ((rest.length + 1) / 2) ≠ 0 := by omega
      have htk : (((e0.analysis.eco_score : ℚ)) :: List.map (fun (n : Int) => (n : ℚ))
          (List.map (fun e => e.analysis.eco_score) rest)).take
            (Nat.min 5 ((rest.length + 1) / 2)) ≠ [] :=
        take_ne_nil_of _ _ hw (List.cons_ne_nil _ _)
      have hdr : (((e0.analysis.eco_score : ℚ)) :: List.map (fun (n : Int) => (n : ℚ))
          (List.map (fun e => e.analysis.eco_score) rest)).drop
            (rest.length + 1 - Nat.min 5 ((rest.length + 1) / 2)) ≠ [] := by
        apply drop_ne_nil_of
        simp only [List.length_cons, List.length_map]
        omega
      rw [if_pos (And.intro htk hdr)]
      simp only [pymean_ne_nil _ htk, pymean_ne_nil _ hdr, Option.some_bind]
      by_cases h4 : 4 ≤ rest.length + 1
      · rw [if_pos h4]
        have htk2 : (((e0.analysis.eco_score : ℚ)) :: List.map (fun (n : Int) => (n : ℚ))
            (List.map (fun e => e.analysis.eco_score) rest)).take ((rest.length + 1) / 2) ≠ [] :=
          take_ne_nil_of _ _ (by omega) (List.cons_ne_nil _ _)
        have hdr2 : (((e0.analysis.eco_score : ℚ)) :: List.map (fun (n : Int) => (n : ℚ))
            (List.map (fun e => e.analysis.eco_score) rest)).drop ((rest.length + 1) / 2) ≠ [] := by
          apply drop_ne_nil_of
          simp only [List.length_cons, List.length_map]
          omega
        simp only [pymean_ne_nil _ htk2, pymean_ne_nil _ hdr2, Option.some_bind]
        exact ⟨_, _, rfl, rfl, rfl, rfl, rfl, rfl, rfl, rfl, rfl, rfl, rfl⟩
      · rw [if_neg h4]
        exact ⟨_, _, rfl, rfl, rfl, rfl, rfl, rfl, rfl, rfl, rfl, rfl, rfl⟩
    · rw [if_neg h2, if_neg (by omega : ¬ 4 ≤ rest.length + 1)]
      exact ⟨_, _, rfl, rfl, rfl, rfl, rfl, rfl, rfl, rfl, rfl, rfl, rfl⟩

/-- Witness for C10: the four-entry list with scores [10, 20, 30, 40]. -/
theorem C10_stats_agree_except_trend_witness :
    ∃ m d, memCalculateJourneyStats fourEntries [] = some m ∧
      dbCalculateJourneyStats fourEntries [] = some d ∧
      m.total_analyses = d.total_analyses ∧
      m.total_comparisons = d.total_comparisons ∧
      m.average_eco_score = d.average_eco_score ∧
      m.best_eco_score = d.best_eco_score ∧
      m.worst_eco_score = d.worst_eco_score ∧
      m.favorite_categories = d.favorite_categories ∧
      m.days_active = d.days_active ∧
      m.first_analysis_date = d.first_analysis_date ∧
      m.last_analysis_date = d.last_analysis_date :=
  C10_stats_agree_except_trend fourEntries [] (by decide)

/-- Claim C2: for the chronological scores [10, 90] the specification formula
mean(recent) − mean(early) gives +80, but `_calculate_journey_stats` slices
the FIRST `min(5, n/2)` scores as `recent_scores` and the last ones as
`early_scores`, so with entries in append (chronological) order it computes
mean(early) − mean(recent) = −80.  This contradicts the source comment
"(last 5 vs first 5)" and the `JourneyStats` field documentation
"Positive = improving". -/
theorem C2_trend_sign_flipped :
    (dbCalculateJourneyStats twoEntries []).map JourneyStats.improvement_trend
      = some (-80) ∧ (-80 : ℚ) ≠ 80 := by
  constructor
  · with_unfolding_all decide
  · norm_num

/-- Claim C4: on the filtering example (scores [30, 55, 80], categories
[A, B, A]) `DatabaseHistoryService.get_history` returns all three entries for
both a `min_eco_score = 50` filter and a `category = A` filter — the database
service never applies the category or eco-score filter fields — whereas the
in-memory `_filter_entries` predicate produces exactly the entries the claim
describes (newest first). -/
theorem C4_db_history_ignores_score_and_category_filters :
    (dbGetHistory shaTag hmacConst dbThree tokLogin (some minFilter)).entries.map
        (fun e => e.analysis.eco_score) = [80, 55, 30] ∧
    (memFilterEntries threeEntries minFilter none).map
        (fun e => e.analysis.eco_score) = [80, 55] ∧
    (dbGetHistory shaTag hmacConst dbThree tokLogin (some catFilter)).entries.map
        (fun e => e.analysis.eco_score) = [80, 55, 30] ∧
    (memFilterEntries threeEntries catFilter none).map
        (fun e => e.analysis.eco_score) = [80, 30] := by
  refine ⟨?_, ?_, ?_, ?_⟩ <;> with_unfolding_all decide

/-- Claim C6: for an authenticated user with exactly ten recorded analyses,
none scoring at least 90, `DatabaseHistoryService.get_journey` returns an
empty milestone list (it never computes milestones), although the milestone
generator of the in-memory service would produce the ten-analyses badge and
withhold the 90+-score badge for exactly these statistics. -/
theorem C6_db_journey_returns_no_milestones :
    (dbGetJourney shaTag hmacConst dbTen tokLogin).map
        (fun r => r.journey.milestones) = some [] ∧
    (dbGetJourney shaTag hmacConst dbTen tokLogin).map
        (fun r => r.journey.stats.total_analyses) = some 10 ∧
    "🔥 10 Products Analyzed!".data ∈
        memGenerateMilestones ((dbCalculateJourneyStats tenEntries []).getD {}) tenEntries ∧
    "💚 Found an Eco Superstar (90+ score)!".data ∉
        memGenerateMilestones ((dbCalculateJourneyStats tenEntries []).getD {}) tenEntries := by
  refine ⟨?_, ?_, ?_, ?_⟩ <;> with_unfolding_all decide

/-- Claim C9, counterexample: with no entries at all the computed stats are
the model defaults, whose `worst_eco_score` is 100, not 0 as the claim
states. -/
theorem C9_worst_default_is_100_not_0 :
    dbCalculateJourneyStats [] [] = some {} ∧
    ({} : JourneyStats).worst_eco_score = 100 ∧
    ¬ ({} : JourneyStats).worst_eco_score = 0 := by
  refine ⟨rfl, rfl, by decide⟩

/-- Claim C9, amended: when the user has no non-comparison entries,
`_calculate_journey_stats` returns the default statistics without ever
applying `statistics.mean` to an empty list (the result is `some`, i.e. no
`StatisticsError` path is reached): `average_eco_score = 0`,
`best_eco_score = 0`, and `worst_eco_score = 100` (the model default, not
zero). -/
theorem C9_no_empty_mean_and_default_aggregates (entries : List HistoryEntry)
    (comparisons : List ComparisonEntry)
    (h : ∀ e ∈ entries, e.is_comparison_analysis = true) :
    dbCalculateJourneyStats entries comparisons = some {} := by
  have hf : entries.filter (fun e => !e.is_comparison_analysis) = [] :=
    List.filter_eq_nil_iff.mpr (fun e he => by simp [h e he])
  cases entries with
  | nil => rfl
  | cons a l =>
    simp only [dbCalculateJourneyStats, hf]
    simp

/-- Witness for C9: a single comparison-flagged entry. -/
theorem C9_no_empty_mean_and_default_aggregates_witness :
    dbCalculateJourneyStats [mkEntry 1 50 (some "A".data) true none] [] = some {} :=
  C9_no_empty_mean_and_default_aggregates _ _ (by decide)

/-- Claim C10, counterexample: on the identical four chronological entries
with scores [10, 20, 30, 40] (no comparison flags) the in-memory service
computes `improvement_trend = 20` while the database service computes
`improvement_trend = −20`, so the two services do not compute equal journey
statistics. -/
theorem C10_trend_formulas_disagree :
    (memCalculateJourneyStats fourEntries []).map JourneyStats.improvement_trend
      = some 20 ∧
    (dbCalculateJourneyStats fourEntries []).map JourneyStats.improvement_trend
      = some (-20) := by
  constructor <;> with_unfolding_all decide

/-- Claim C3, counterexample: after a successful registration followed by a
successful login, the token issued at registration still resolves to the user
through `get_user_by_token` (authenticated tokens are resolved by the
embedded `user_id`, not by the stored token hash), contradicting the claim
that the previous token no longer resolves. -/
theorem C3_old_token_still_resolves :
    regResult.2.1 = true ∧ loginResult.2.1 = true ∧
    (get_user_by_token shaTag hmacConst dbLogin tokReg).map DbUser.id = some uidReg := by
  refine ⟨?_, ?_, ?_⟩ <;> with_unfolding_all decide

/-- Claim C5, counterexample: registering a fresh account while the second
commit fails (the commit that stores the token hash; the generic `except`
path with `rollback` cannot undo the already committed insert) returns
failure yet leaves exactly one persisted non-anonymous user row whose
`token_hash` is the empty string — a partial user state. -/
theorem C5_partial_user_persisted_on_failure :
    (register_user shaTag hmacConst {} "Eco@Example.com".data "hunter2".data none
        [1, 2] [3] [4] 100 true).2.1 = false ∧
    (register_user shaTag hmacConst {} "Eco@Example.com".data "hunter2".data none
        [1, 2] [3] [4] 100 true).1.users.map (fun u => (u.token_hash, u.is_anonymous))
      = [([], false)] := by
  constructor <;> with_unfolding_all decide

-- digit facts
theorem digitChar_isDigit : ∀ m < 10, isAsciiDigit (digitChar m) = true := by decide

theorem digitVal_digitChar : ∀ m < 10, digitVal (digitChar m) = m := by decide

theorem isAsciiDigit_bounds {c : Char} (h : isAsciiDigit c = true) :
    48 ≤ c.toNat ∧ c.toNat ≤ 57 := by
  simp only [isAsciiDigit, Bool.and_eq_true, decide_eq_true_eq] at h
  exact h

theorem natToStringAux_digits : ∀ fuel m, m < fuel →
    ∀ c ∈ natToStringAux fuel m, isAsciiDigit c = true := by
  intro fuel
  induction fuel with
  | zero => intro m hm; omega
  | succ f ih =>
    intro m hm c hc
    rw [natToStringAux] at hc
    by_cases h10 : m < 10
    · rw [if_pos h10] at hc
      rcases List.mem_singleton.mp hc with rfl
      exact digitChar_isDigit m h10
    · rw [if_neg h10] at hc
      rcases List.mem_append.mp hc with h | h
      · exact ih (m / 10) (by omega) c h
      · rcases List.mem_singleton.mp h with rfl
        exact digitChar_isDigit (m % 10) (by omega)

theorem natToString_digits (n : Nat) : ∀ c ∈ natToString n, isAsciiDigit c = true :=
  natToStringAux_digits (n + 1) n (by omega)

theorem natToStringAux_ne_nil : ∀ fuel m, m < fuel → natToStringAux fuel m ≠ [] := by
  intro fuel
  induction fuel with
  | zero => intro m hm; omega
  | succ f ih =>
    intro m hm
    rw [natToStringAux]
    by_cases h10 : m < 10
    · rw [if_pos h10]; simp
    · rw [if_neg h10]; simp

theorem natToString_ne_nil (n : Nat) : natToString n ≠ [] :=
  natToStringAux_ne_nil (n + 1) n (by omega)

theorem natToStringAux_foldl : ∀ fuel m acc, m < fuel →
    (natToStringAux fuel m).foldl (fun a c => a * 10 + digitVal c) acc =
      acc * 10 ^ (natToStringAux fuel m).length + m := by
  intro fuel
  induction fuel with
  | zero => intro m acc hm; omega
  | succ f ih =>
    intro m acc hm
    rw [natToStringAux]
    by_cases h10 : m < 10
    · rw [if_pos h10]
      simp [digitVal_digitChar m h10]
    · rw [if_neg h10]
      rw [List.foldl_append, List.length_append]
      rw [ih (m / 10) acc (by omega)]
      simp only [List.foldl_cons, List.foldl_nil, List.length_singleton]
      rw [digitVal_digitChar (m % 10) (by omega)]
      rw [pow_succ]
      have : m / 10 * 10 + m % 10 = m := by omega
      ring_nf
      omega

theorem takeWhile_append_all {p : Char → Bool} {l r : Str} (h : ∀ c ∈ l, p c = true) :
    (l ++ r).takeWhile p = l ++ r.takeWhile p := by
  induction l with
  | nil => simp
  | cons a as ih =>
    have htail := ih (fun c hc => h c (by simp [hc]))
    simp [List.takeWhile_cons, h a (by simp), htail]

theorem dropWhile_append_all {p : Char → Bool} {l r : Str} (h : ∀ c ∈ l, p c = true) :
    (l ++ r).dropWhile p = r.dropWhile p := by
  induction l with
  | nil => simp
  | cons a as ih =>
    have htail := ih (fun c hc => h c (by simp [hc]))
    simp [List.dropWhile_cons, h a (by simp), htail]

theorem takeWhile_head_false {p : Char → Bool} {r : Str}
    (h : ∀ c, r.head? = some c → p c = false) : r.takeWhile p = [] := by
  cases r with
  | nil => rfl
  | cons a as => simp [List.takeWhile_cons, h a rfl]

theorem dropWhile_head_false {p : Char → Bool} {r : Str}
    (h : ∀ c, r.head? = some c → p c = false) : r.dropWhile p = r := by
  cases r with
  | nil => rfl
  | cons a as => simp [List.dropWhile_cons, h a rfl]

theorem parseNat_natToString (n : Nat) (rest : Str)
    (h : ∀ c, rest.head? = some c → isAsciiDigit c = false) :
    parseNat (natToString n ++ rest) = some (n, rest) := by
  unfold parseNat
  rw [takeWhile_append_all (natToString_digits n), takeWhile_head_false h,
    dropWhile_append_all (natToString_digits n), dropWhile_head_false h,
    List.append_nil]
  rw [if_neg (natToString_ne_nil n)]
  rw [show natToString n = natToStringAux (n + 1) n from rfl]
  rw [natToStringAux_foldl (n + 1) n 0 (by omega)]
  simp

theorem parseStringBody_append (sbody rest : Str)
    (h : ∀ c ∈ sbody, c ≠ '"' ∧ c ≠ '\\') :
    parseStringBody (sbody ++ '"' :: rest) = some (sbody, rest) := by
  induction sbody with
  | nil => simp [parseStringBody]
  | cons a as ih =>
    have ha := h a (by simp)
    have htail := ih (fun c hc => h c (by simp [hc]))
    simp [parseStringBody, if_neg ha.1, if_neg ha.2, htail]

theorem parseJVal_str (sbody rest : Str) (h : ∀ c ∈ sbody, c ≠ '"' ∧ c ≠ '\\') :
    parseJVal ('"' :: (sbody ++ '"' :: rest)) = some (JVal.jstr sbody, rest) := by
  simp [parseJVal, parseStringBody_append sbody rest h]

theorem parseJVal_num (n : Nat) (rest : Str)
    (h : ∀ c, rest.head? = some c → isAsciiDigit c = false) :
    parseJVal (natToString n ++ rest) = some (JVal.jnum n, rest) := by
  rcases hnts : natToString n with _ | ⟨c, cs⟩
  · exact absurd hnts (natToString_ne_nil n)
  · have hc : isAsciiDigit c = true := by
      have := natToString_digits n
      rw [hnts] at this
      exact this c (by simp)
    have hcq : c ≠ '"' := by
      intro hq
      rw [hq] at hc
      exact absurd hc (by decide)
    have hp : parseNat (natToString n ++ rest) = some (n, rest) :=
      parseNat_natToString n rest h
    rw [hnts] at hp
    simp only [List.cons_append]
    unfold parseJVal
    split
    · rename_i r' heq
      exfalso
      injection heq with h1 _
      exact hcq h1
    · simp only [List.cons_append] at hp
      rw [hp]
      rfl

theorem parseMembers_mono_aux : ∀ f k s r, parseMembers f s = some r →
    parseMembers (f + k) s = some r := by
  intro f
  induction f with
  | zero => intro k s r h; simp [parseMembers] at h
  | succ f ih =>
    intro k s r h
    have hfk : f + 1 + k = (f + k) + 1 := by omega
    rw [hfk]
    simp only [parseMembers] at h ⊢
    split at h
    · rename_i r1
      rcases hPB : parseStringBody r1 with _ | ⟨k1, s1⟩
      · rw [hPB] at h
        exact Option.noConfusion h
      · rw [hPB] at h
        simp only [Option.bind_eq_bind, Option.some_bind] at h ⊢
        split at h
        · rename_i r2
          simp only [Option.bind_eq_bind, Option.some_bind] at h ⊢
          rcases hC : parseJVal r2 with _ | ⟨v, s3⟩
          · rw [hC] at h
            simp at h
          · rw [hC] at h
            simp only [Option.bind_eq_bind, Option.some_bind] at h ⊢
            split at h
            · rename_i r3
              rcases Option.map_eq_some'.mp h with ⟨p, hp, hr⟩
              rw [ih k r3 p hp]
              simp [hr]
            · exact h
            · simp at h
        · simp at h
    · simp at h

theorem parseMembers_mono (f1 f2 : Nat) (s : Str) (r : List (Str × JVal) × Str)
    (h : parseMembers f1 s = some r) (hle : f1 ≤ f2) : parseMembers f2 s = some r := by
  rcases Nat.exists_eq_add_of_le hle with ⟨k, rfl⟩
  exact parseMembers_mono_aux f1 k s r h

theorem parseMembers_step_str (f : Nat) (k v tail : Str)
    (hk : ∀ c ∈ k, c ≠ '"' ∧ c ≠ '\\') (hv : ∀ c ∈ v, c ≠ '"' ∧ c ≠ '\\') :
    parseMembers (f + 1) ('"' :: (k ++ '"' :: ':' :: '"' :: (v ++ '"' :: ',' :: tail)))
      = (parseMembers f tail).map (fun p => ((k, JVal.jstr v) :: p.1, p.2)) := by
  simp only [parseMembers]
  rw [parseStringBody_append k _ hk]
  simp only [Option.bind_eq_bind, Option.some_bind]
  rw [parseJVal_str v (',' :: tail) hv]
  simp only [Option.bind_eq_bind, Option.some_bind]

theorem parseMembers_last_str (f : Nat) (k v : Str)
    (hk : ∀ c ∈ k, c ≠ '"' ∧ c ≠ '\\') (hv : ∀ c ∈ v, c ≠ '"' ∧ c ≠ '\\') :
    parseMembers (f + 1) ('"' :: (k ++ '"' :: ':' :: '"' :: (v ++ '"' :: '\x7d' :: [])))
      = some ([(k, JVal.jstr v)], []) := by
  simp only [parseMembers]
  rw [parseStringBody_append k _ hk]
  simp only [Option.bind_eq_bind, Option.some_bind]
  rw [parseJVal_str v ('\x7d' :: []) hv]
  simp only [Option.bind_eq_bind, Option.some_bind]

theorem parseMembers_step_num (f : Nat) (k : Str) (n : Nat) (tail : Str)
    (hk : ∀ c ∈ k, c ≠ '"' ∧ c ≠ '\\') :
    parseMembers (f + 1) ('"' :: (k ++ '"' :: ':' :: (natToString n ++ ',' :: tail)))
      = (parseMembers f tail).map (fun p => ((k, JVal.jnum n) :: p.1, p.2)) := by
  simp only [parseMembers]
  rw [parseStringBody_append k _ hk]
  simp only [Option.bind_eq_bind, Option.some_bind]
  rw [parseJVal_num n (',' :: tail) (by intro c hc; injection hc with h1; rw [← h1]; decide)]
  simp only [Option.bind_eq_bind, Option.some_bind]

theorem jsonLoadsFlat_dumpsAnon (created : Nat) (random : Str)
    (hr : ∀ c ∈ random, c ≠ '"' ∧ c ≠ '\\') :
    jsonLoadsFlat (dumpsAnon created random) =
      some [("type".data, JVal.jstr "anonymous".data),
            ("created".data, JVal.jnum created),
            ("random".data, JVal.jstr random)] := by
  have hshape : dumpsAnon created random =
      '\x7b' :: '"' :: ("type".data ++ '"' :: ':' :: '"' :: ("anonymous".data ++ '"' :: ',' ::
        ('"' :: ("created".data ++ '"' :: ':' :: (natToString created ++ ',' ::
        ('"' :: ("random".data ++ '"' :: ':' :: '"' :: (random ++ '"' :: '\x7d' :: [])))))))) := by
    with_unfolding_all rfl
  rw [hshape]
  have h3 : parseMembers 3
      ('"' :: ("type".data ++ '"' :: ':' :: '"' :: ("anonymous".data ++ '"' :: ',' ::
        ('"' :: ("created".data ++ '"' :: ':' :: (natToString created ++ ',' ::
        ('"' :: ("random".data ++ '"' :: ':' :: '"' :: (random ++ '"' :: '\x7d' :: [])))))))))
      = some ([("type".data, JVal.jstr "anonymous".data),
               ("created".data, JVal.jnum created),
               ("random".data, JVal.jstr random)], []) := by
    rw [show (3 : Nat) = 2 + 1 from rfl,
      parseMembers_step_str 2 "type".data "anonymous".data _ (by decide) (by decide)]
    rw [show (2 : Nat) = 1 + 1 from rfl,
      parseMembers_step_num 1 "created".data created _ (by decide)]
    rw [show (1 : Nat) = 0 + 1 from rfl,
      parseMembers_last_str 0 "random".data random (by decide) hr]
    rfl
  simp only [jsonLoadsFlat]
  split
  · rename_i r2 heq
    exfalso
    injection heq with h1 h2
    injection h2 with h3 _
    exact absurd h3 (by decide)
  · rename_i rest heq
    injection heq with _ h2
    subst h2
    rw [parseMembers_mono 3 _ _ _ h3 (by simp)]
  · rename_i h1 h2
    exact ((h2 _ rfl)).elim

theorem jsonLoadsFlat_dumpsAuth (user_id : Str) (created : Nat) (random : Str)
    (hu : ∀ c ∈ user_id, c ≠ '"' ∧ c ≠ '\\')
    (hr : ∀ c ∈ random, c ≠ '"' ∧ c ≠ '\\') :
    jsonLoadsFlat (dumpsAuth user_id created random) =
      some [("type".data, JVal.jstr "authenticated".data),
            ("user_id".data, JVal.jstr user_id),
            ("created".data, JVal.jnum created),
            ("random".data, JVal.jstr random)] := by
  have hshape : dumpsAuth user_id created random =
      '\x7b' :: '"' :: ("type".data ++ '"' :: ':' :: '"' :: ("authenticated".data ++ '"' :: ',' ::
        ('"' :: ("user_id".data ++ '"' :: ':' :: '"' :: (user_id ++ '"' :: ',' ::
        ('"' :: ("created".data ++ '"' :: ':' :: (natToString created ++ ',' ::
        ('"' :: ("random".data ++ '"' :: ':' :: '"' :: (random ++ '"' :: '\x7d' :: []))))))))))) := by
    with_unfolding_all rfl
  rw [hshape]
  have h4 : parseMembers 4
      ('"' :: ("type".data ++ '"' :: ':' :: '"' :: ("authenticated".data ++ '"' :: ',' ::
        ('"' :: ("user_id".data ++ '"' :: ':' :: '"' :: (user_id ++ '"' :: ',' ::
        ('"' :: ("created".data ++ '"' :: ':' :: (natToString created ++ ',' ::
        ('"' :: ("random".data ++ '"' :: ':' :: '"' :: (random ++ '"' :: '\x7d' :: [])))))))))))) =
      some ([("type".data, JVal.jstr "authenticated".data),
             ("user_id".data, JVal.jstr user_id),
             ("created".data, JVal.jnum created),
             ("random".data, JVal.jstr random)], []) := by
    rw [show (4 : Nat) = 3 + 1 from rfl,
      parseMembers_step_str 3 "type".data "authenticated".data _ (by decide) (by decide)]
    rw [show (3 : Nat) = 2 + 1 from rfl,
      parseMembers_step_str 2 "user_id".data user_id _ (by decide) hu]
    rw [show (2 : Nat) = 1 + 1 from rfl,
      parseMembers_step_num 1 "created".data created _ (by decide)]
    rw [show (1 : Nat) = 0 + 1 from rfl,
      parseMembers_last_str 0 "random".data random (by decide) hr]
    rfl
  simp only [jsonLoadsFlat]
  split
  · rename_i r2 heq
    exfalso
    injection heq with h1 h2
    injection h2 with h3 _
    exact absurd h3 (by decide)
  · rename_i rest heq
    injection heq with _ h2
    subst h2
    rw [parseMembers_mono 4 _ _ _ h4 (by simp)]
  · rename_i h1 h2
    exact ((h2 _ rfl)).elim

theorem sextetVal_sextetChar_url : ∀ n, n < 64 →
    sextetVal b64urlAlphabet (sextetChar b64urlAlphabet n) = some n := by
  decide

theorem sextetChar_url_ne_pad : ∀ n, n < 64 → sextetChar b64urlAlphabet n ≠ '=' := by
  decide

theorem sextetChar_url_ne_underscore : ∀ n, n < 63 → sextetChar b64urlAlphabet n ≠ '_' := by
  decide

theorem b64encodeGroups_length (alpha : Str) : ∀ bs : List Nat,
    (b64encodeGroups alpha bs).length =
      bs.length / 3 * 4 + (if bs.length % 3 = 0 then 0 else bs.length % 3 + 1)
  | [] => by simp [b64encodeGroups]
  | [b1] => by simp [b64encodeGroups]
  | [b1, b2] => by simp [b64encodeGroups]
  | b1 :: b2 :: b3 :: rest => by
    have ih := b64encodeGroups_length alpha rest
    simp only [b64encodeGroups, List.length_cons, ih]
    have h3 : (rest.length + 3) % 3 = rest.length % 3 := by omega
    have h4 : (rest.length + 3) / 3 = rest.length / 3 + 1 := by omega
    rw [show rest.length + 1 + 1 + 1 = rest.length + 3 from rfl, h3, h4]
    by_cases h : rest.length % 3 = 0 <;> simp [h] <;> omega

theorem addB64Padding_encode (bs : List Nat) :
    addB64Padding (b64urlEncodeNoPad bs) =
      b64urlEncodeNoPad bs ++ List.replicate (b64padLen bs.length) '=' := by
  unfold addB64Padding b64urlEncodeNoPad b64padLen
  have hlen := b64encodeGroups_length b64urlAlphabet bs
  by_cases h0 : bs.length % 3 = 0
  · rw [if_neg]
    · simp [h0]
    · simp only [hlen, h0, if_pos]
      omega
  · by_cases h1 : bs.length % 3 = 1
    · rw [if_pos]
      · have : (b64encodeGroups b64urlAlphabet bs).length % 4 = 2 := by
          rw [hlen, if_neg h0, h1]; omega
        rw [this]
        have : (3 - bs.length % 3) % 3 = 2 := by omega
        rw [this]
      · rw [hlen, if_neg h0, h1]
        omega
    · have h2 : bs.length % 3 = 2 := by omega
      rw [if_pos]
      · have : (b64encodeGroups b64urlAlphabet bs).length % 4 = 3 := by
          rw [hlen, if_neg h0, h2]; omega
        rw [this]
        have : (3 - bs.length % 3) % 3 = 1 := by omega
        rw [this]
      · rw [hlen, if_neg h0, h2]
        omega

theorem b64decodeQuad_encode : ∀ bs : List Nat, (∀ b ∈ bs, b < 256) →
    b64decodeQuad b64urlAlphabet
      (b64encodeGroups b64urlAlphabet bs ++ List.replicate (b64padLen bs.length) '=') = some bs
  | [], h => by simp [b64encodeGroups, b64padLen, b64decodeQuad]
  | [b1], h => by
    have hb1 : b1 < 256 := h b1 (by simp)
    have e1 := sextetVal_sextetChar_url (b1 / 4) (by omega)
    have e2 := sextetVal_sextetChar_url (b1 % 4 * 16) (by omega)
    simp only [b64encodeGroups, b64padLen]
    simp only [List.length_singleton, show (3 - 1 % 3) % 3 = 2 from rfl, List.replicate]
    simp only [List.cons_append, List.nil_append, b64decodeQuad, e1, e2,
      Option.bind_eq_bind, Option.some_bind]
    simp only [if_pos (by simp : True ∧ True ∧ True)]
    have : b1 / 4 * 4 + b1 % 4 * 16 / 16 = b1 := by omega
    rw [this]
  | [b1, b2], h => by
    have hb1 : b1 < 256 := h b1 (by simp)
    have hb2 : b2 < 256 := h b2 (by simp)
    have e1 := sextetVal_sextetChar_url (b1 / 4) (by omega)
    have e2 := sextetVal_sextetChar_url (b1 % 4 * 16 + b2 / 16) (by omega)
    have e3 := sextetVal_sextetChar_url (b2 % 16 * 4) (by omega)
    have n3 := sextetChar_url_ne_pad (b2 % 16 * 4) (by omega)
    simp only [b64encodeGroups, b64padLen]
    simp only [List.length_cons, List.length_nil, show (3 - 2 % 3) % 3 = 1 from rfl, List.replicate]
    simp only [List.cons_append, List.nil_append, b64decodeQuad, e1, e2, e3,
      Option.bind_eq_bind, Option.some_bind]
    rw [if_neg (fun hcon => n3 hcon.2.1)]
    simp only [if_pos (by simp : True ∧ True)]
    have hx : b1 / 4 * 4 + (b1 % 4 * 16 + b2 / 16) / 16 = b1 := by omega
    have hy : (b1 % 4 * 16 + b2 / 16) % 16 * 16 + b2 % 16 * 4 / 4 = b2 := by omega
    rw [hx, hy]
  | b1 :: b2 :: b3 :: rest, h => by
    have hb1 : b1 < 256 := h b1 (by simp)
    have hb2 : b2 < 256 := h b2 (by simp)
    have hb3 : b3 < 256 := h b3 (by simp)
    have ih := b64decodeQuad_encode rest (fun b hb => h b (by simp [hb]))
    have e1 := sextetVal_sextetChar_url (b1 / 4) (by omega)
    have e2 := sextetVal_sextetChar_url (b1 % 4 * 16 + b2 / 16) (by omega)
    have e3 := sextetVal_sextetChar_url (b2 % 16 * 4 + b3 / 64) (by omega)
    have e4 := sextetVal_sextetChar_url (b3 % 64) (by omega)
    have n3 := sextetChar_url_ne_pad (b2 % 16 * 4 + b3 / 64) (by omega)
    have n4 := sextetChar_url_ne_pad (b3 % 64) (by omega)
    have hpad : b64padLen (b1 :: b2 :: b3 :: rest).length = b64padLen rest.length := by
      simp only [b64padLen, List.length_cons]
      omega
    rw [hpad]
    simp only [b64encodeGroups, List.cons_append, b64decodeQuad, e1, e2, e3, e4,
      Option.bind_eq_bind, Option.some_bind]
    rw [if_neg (fun hcon => n3 hcon.2.1)]
    rw [if_neg (fun hcon => n4 hcon.2)]
    simp only [List.append_eq]
    rw [ih]
    simp only [Option.some_bind]
    have hx : b1 / 4 * 4 + (b1 % 4 * 16 + b2 / 16) / 16 = b1 := by omega
    have hy : (b1 % 4 * 16 + b2 / 16) % 16 * 16 + (b2 % 16 * 4 + b3 / 64) / 4 = b2 := by omega
    have hz : (b2 % 16 * 4 + b3 / 64) % 4 * 64 + b3 % 64 = b3 := by omega
    rw [hx, hy, hz]

theorem b64url_roundtrip (bs : List Nat) (h : ∀ b ∈ bs, b < 256) :
    b64urlDecodePadded (addB64Padding (b64urlEncodeNoPad bs)) = some bs := by
  rw [addB64Padding_encode]
  unfold b64urlDecodePadded
  rw [if_pos]
  · exact b64decodeQuad_encode bs h
  · rw [List.length_append, List.length_replicate]
    unfold b64urlEncodeNoPad
    rw [b64encodeGroups_length]
    unfold b64padLen
    by_cases h0 : bs.length % 3 = 0
    · simp [h0]
    · simp [h0]
      omega

theorem utf8Encode_ascii (s : Str) : (∀ c ∈ s, c.toNat < 128) →
    utf8Encode s = s.map Char.toNat := by
  induction s with
  | nil => intro h; rfl
  | cons c cs ih =>
    intro h
    have hc : c.toNat < 128 := h c (by simp)
    have ih2 := ih (fun x hx => h x (by simp [hx]))
    rw [show utf8Encode (c :: cs) = utf8EncodeChar c.toNat ++ utf8Encode cs from rfl]
    rw [show utf8EncodeChar c.toNat = [c.toNat] from if_pos hc, ih2]
    rfl

theorem utf8DecodeAux_ascii (s : Str) : ∀ fuel, s.length ≤ fuel →
    (∀ c ∈ s, c.toNat < 128) → utf8DecodeAux fuel (s.map Char.toNat) = some s := by
  induction s with
  | nil => intro fuel hf h; cases fuel <;> rfl
  | cons c cs ih =>
    intro fuel hf h
    have hc : c.toNat < 128 := h c (by simp)
    obtain ⟨f, rfl⟩ : ∃ f, fuel = f + 1 := by
      cases fuel with
      | zero => simp at hf
      | succ f => exact ⟨f, rfl⟩
    have ih2 := ih f (by simpa using hf) (fun x hx => h x (by simp [hx]))
    rw [List.map_cons]
    simp only [utf8DecodeAux]
    rw [if_pos hc, ih2]
    simp [Char.ofNat_toNat]

theorem utf8Decode_ascii (s : Str) (h : ∀ c ∈ s, c.toNat < 128) :
    utf8Decode (s.map Char.toNat) = some s := by
  unfold utf8Decode
  exact utf8DecodeAux_ascii s _ (by simp) h

theorem utf8_roundtrip_ascii (s : Str) (h : ∀ c ∈ s, c.toNat < 128) :
    utf8Decode (utf8Encode s) = some s := by
  rw [utf8Encode_ascii s h, utf8Decode_ascii s h]

theorem sextetChar_url_index_ne_underscore : ∀ n, n < 64 → n ≠ 63 →
    sextetChar b64urlAlphabet n ≠ '_' := by
  decide

theorem b64url_no_underscore : ∀ bs : List Nat,
    (∀ b ∈ bs, b < 128 ∧ b ≠ 63 ∧ b ≠ 127) →
    ∀ ch ∈ b64urlEncodeNoPad bs, ch ≠ '_'
  | [], _, ch, hch => absurd hch (by simp [b64urlEncodeNoPad, b64encodeGroups])
  | [b1], h, ch, hch => by
    have hb1 := h b1 (by simp)
    simp [b64urlEncodeNoPad, b64encodeGroups] at hch
    rcases hch with rfl | rfl
    · exact sextetChar_url_index_ne_underscore _ (by omega) (by omega)
    · exact sextetChar_url_index_ne_underscore _ (by omega) (by omega)
  | [b1, b2], h, ch, hch => by
    have hb1 := h b1 (by simp)
    have hb2 := h b2 (by simp)
    simp [b64urlEncodeNoPad, b64encodeGroups] at hch
    rcases hch with rfl | rfl | rfl
    · exact sextetChar_url_index_ne_underscore _ (by omega) (by omega)
    · exact sextetChar_url_index_ne_underscore _ (by omega) (by omega)
    · exact sextetChar_url_index_ne_underscore _ (by omega) (by omega)
  | b1 :: b2 :: b3 :: rest, h, ch, hch => by
    have hb1 := h b1 (by simp)
    have hb2 := h b2 (by simp)
    have hb3 := h b3 (by simp)
    simp only [b64urlEncodeNoPad, b64encodeGroups, List.mem_cons] at hch ⊢
    rcases hch with rfl | rfl | rfl | rfl | hmem
    · exact sextetChar_url_index_ne_underscore _ (by omega) (by omega)
    · exact sextetChar_url_index_ne_underscore _ (by omega) (by omega)
    · exact sextetChar_url_index_ne_underscore _ (by omega) (by omega)
    · exact sextetChar_url_index_ne_underscore _ (by omega) (by omega)
    · exact b64url_no_underscore rest (fun b hb => h b (by simp [hb])) ch hmem

theorem splitOnceChar_append (sep : Char) : ∀ A B : Str, sep ∉ A →
    splitOnceChar sep (A ++ sep :: B) = some (A, B)
  | [], B, _ => by simp [splitOnceChar]
  | a :: A, B, h => by
    have ha : a ≠ sep := fun heq => h (by simp [heq])
    have ih := splitOnceChar_append sep A B (fun hm => h (by simp [hm]))
    simp only [List.cons_append, splitOnceChar, if_neg ha, List.append_eq, ih]
    rfl

theorem pySplit2_three (T P S : Str) (hT : '_' ∉ T) (hP : '_' ∉ P) :
    pySplit2 '_' (T ++ '_' :: (P ++ '_' :: S)) = [T, P, S] := by
  unfold pySplit2
  rw [splitOnceChar_append _ _ _ hT]
  simp only [splitOnceChar_append _ _ _ hP]

theorem isPrefixOf_append_self : ∀ l t : Str, l.isPrefixOf (l ++ t) = true
  | [], t => by simp [List.isPrefixOf]
  | a :: l, t => by
    simp only [List.cons_append, List.isPrefixOf_cons₂_self]
    exact isPrefixOf_append_self l t

theorem payloadCharOk_iff (c : Char) : payloadCharOk c = true ↔
    c.toNat < 127 ∧ c.toNat ≠ 63 ∧ c ≠ '"' ∧ c ≠ '\\' := by
  simp [payloadCharOk]

theorem getD_pred (P : Char → Prop) : ∀ (l : Str) (d : Nat) (dfl : Char),
    (∀ c ∈ l, P c) → P dfl → P (l.getD d dfl)
  | [], d, dfl, hl, hd => by simpa [List.getD] using hd
  | a :: l, 0, dfl, hl, hd => by simpa using hl a (by simp)
  | a :: l, d + 1, dfl, hl, hd => by
    simpa using getD_pred P l d dfl (fun c hc => hl c (by simp [hc])) hd

theorem payloadCharOk_sextetChar_std (n : Nat) :
    payloadCharOk (sextetChar b64stdAlphabet n) = true := by
  unfold sextetChar
  exact getD_pred (fun c => payloadCharOk c = true) b64stdAlphabet n 'A' (by decide) (by decide)

theorem b64encodeGroups_chars (alpha : Str) (P : Char → Prop)
    (hP : ∀ n, P (sextetChar alpha n)) : ∀ bs, ∀ c ∈ b64encodeGroups alpha bs, P c
  | [] => by simp [b64encodeGroups]
  | [b1] => by
    intro c hc
    simp only [b64encodeGroups, List.mem_cons, List.not_mem_nil, or_false] at hc
    rcases hc with rfl | rfl <;> exact hP _
  | [b1, b2] => by
    intro c hc
    simp only [b64encodeGroups, List.mem_cons, List.not_mem_nil, or_false] at hc
    rcases hc with rfl | rfl | rfl <;> exact hP _
  | b1 :: b2 :: b3 :: rest => by
    intro c hc
    simp only [b64encodeGroups, List.mem_cons] at hc
    rcases hc with rfl | rfl | rfl | rfl | hm
    · exact hP _
    · exact hP _
    · exact hP _
    · exact hP _
    · exact b64encodeGroups_chars alpha P hP rest c hm

theorem b64stdEncodePad_chars (bs : List Nat) :
    ∀ c ∈ b64stdEncodePad bs, payloadCharOk c = true := by
  intro c hc
  unfold b64stdEncodePad at hc
  rcases List.mem_append.mp hc with h | h
  · exact b64encodeGroups_chars b64stdAlphabet (fun c => payloadCharOk c = true)
      payloadCharOk_sextetChar_std bs c h
  · rw [List.eq_of_mem_replicate h]; decide

theorem payloadCharOk_hexDigit (d : Nat) : payloadCharOk (hexDigit d) = true := by
  unfold hexDigit
  exact getD_pred (fun c => payloadCharOk c = true) _ d '0' (by decide) (by decide)

theorem hexEncode_chars : ∀ bs : List Nat, ∀ c ∈ hexEncode bs, payloadCharOk c = true
  | [] => by simp [hexEncode]
  | b :: r => by
    intro c hc
    simp only [hexEncode, List.mem_cons] at hc
    rcases hc with rfl | rfl | hm
    · exact payloadCharOk_hexDigit _
    · exact payloadCharOk_hexDigit _
    · exact hexEncode_chars r c hm

theorem payloadCharOk_digit {c : Char} (h : isAsciiDigit c = true) :
    payloadCharOk c = true := by
  have hb := isAsciiDigit_bounds h
  rw [payloadCharOk_iff]
  refine ⟨by omega, by omega, ?_, ?_⟩
  · rintro rfl; exact absurd hb (by decide)
  · rintro rfl; exact absurd hb (by decide)

theorem payloadByteOk_of_charOk {c : Char} (h : payloadCharOk c = true) :
    c.toNat < 128 ∧ c.toNat ≠ 63 ∧ c.toNat ≠ 127 := by
  have := (payloadCharOk_iff c).mp h
  exact ⟨by omega, this.2.1, by omega⟩

theorem dumpsAnon_bytes (created : Nat) (random : Str)
    (hr : ∀ c ∈ random, payloadCharOk c = true) :
    ∀ c ∈ dumpsAnon created random, c.toNat < 128 ∧ c.toNat ≠ 63 ∧ c.toNat ≠ 127 := by
  intro c hc
  unfold dumpsAnon at hc
  simp only [List.mem_append] at hc
  rcases hc with h | h | h | h | h
  · revert c h; decide
  · exact payloadByteOk_of_charOk (payloadCharOk_digit (natToString_digits created c h))
  · revert c h; decide
  · exact payloadByteOk_of_charOk (hr c h)
  · revert c h; decide

theorem dumpsAuth_bytes (user_id : Str) (created : Nat) (random : Str)
    (hu : ∀ c ∈ user_id, payloadCharOk c = true)
    (hr : ∀ c ∈ random, payloadCharOk c = true) :
    ∀ c ∈ dumpsAuth user_id created random, c.toNat < 128 ∧ c.toNat ≠ 63 ∧ c.toNat ≠ 127 := by
  intro c hc
  unfold dumpsAuth at hc
  simp only [List.mem_append] at hc
  rcases hc with h | h | h | h | h | h | h
  · revert c h; decide
  · exact payloadByteOk_of_charOk (hu c h)
  · revert c h; decide
  · exact payloadByteOk_of_charOk (payloadCharOk_digit (natToString_digits created c h))
  · revert c h; decide
  · exact payloadByteOk_of_charOk (hr c h)
  · revert c h; decide

theorem token_decode_chain (pj : Str)
    (hpj : ∀ c ∈ pj, c.toNat < 128 ∧ c.toNat ≠ 63 ∧ c.toNat ≠ 127) :
    ('_' ∉ b64urlEncodeNoPad (utf8Encode pj)) ∧
    b64urlDecodePadded (addB64Padding (b64urlEncodeNoPad (utf8Encode pj))) =
      some (utf8Encode pj) ∧
    utf8Decode (utf8Encode pj) = some pj := by
  have hascii : ∀ c ∈ pj, c.toNat < 128 := fun c hc => (hpj c hc).1
  have henc := utf8Encode_ascii pj hascii
  have hbprops : ∀ b ∈ utf8Encode pj, b < 128 ∧ b ≠ 63 ∧ b ≠ 127 := by
    rw [henc]
    intro b hb
    obtain ⟨c, hc, rfl⟩ := List.mem_map.mp hb
    exact hpj c hc
  refine ⟨?_, ?_, ?_⟩
  · intro hm
    exact b64url_no_underscore _ hbprops _ hm rfl
  · exact b64url_roundtrip _ (fun b hb => by have := (hbprops b hb).1; omega)
  · exact utf8_roundtrip_ascii pj hascii

theorem validate_generate_anon (hmac16 : Str → Str) (created : Nat) (randomBytes : List Nat) :
    validate_token hmac16 (generate_secure_anonymous_token hmac16 created randomBytes) = true ∧
    extract_token_info hmac16 (generate_secure_anonymous_token hmac16 created randomBytes) =
      some [("type".data, JVal.jstr "anonymous".data),
            ("created".data, JVal.jnum created),
            ("random".data, JVal.jstr (b64stdEncodePad randomBytes))] := by
  have hr : ∀ c ∈ b64stdEncodePad randomBytes, payloadCharOk c = true :=
    b64stdEncodePad_chars randomBytes
  obtain ⟨hnoU, hdec, hutf⟩ :=
    token_decode_chain (dumpsAnon created (b64stdEncodePad randomBytes))
      (dumpsAnon_bytes created (b64stdEncodePad randomBytes) hr)
  have hjson := jsonLoadsFlat_dumpsAnon created (b64stdEncodePad randomBytes)
    (fun c hc => by
      have := (payloadCharOk_iff c).mp (hr c hc)
      exact ⟨this.2.2.1, this.2.2.2⟩)
  have htok : generate_secure_anonymous_token hmac16 created randomBytes =
      "anon".data ++ '_' ::
        (b64urlEncodeNoPad (utf8Encode (dumpsAnon created (b64stdEncodePad randomBytes))) ++ '_' ::
          hmac16 (b64urlEncodeNoPad (utf8Encode (dumpsAnon created (b64stdEncodePad randomBytes))))) := by
    with_unfolding_all rfl
  have hsplit := pySplit2_three "anon".data
    (b64urlEncodeNoPad (utf8Encode (dumpsAnon created (b64stdEncodePad randomBytes))))
    (hmac16 (b64urlEncodeNoPad (utf8Encode (dumpsAnon created (b64stdEncodePad randomBytes)))))
    (by decide) hnoU
  have hpre : "anon_".data.isPrefixOf
      (generate_secure_anonymous_token hmac16 created randomBytes) = true := by
    rw [show generate_secure_anonymous_token hmac16 created randomBytes =
      "anon_".data ++
        (b64urlEncodeNoPad (utf8Encode (dumpsAnon created (b64stdEncodePad randomBytes))) ++ '_' ::
          hmac16 (b64urlEncodeNoPad (utf8Encode (dumpsAnon created (b64stdEncodePad randomBytes)))))
      from by with_unfolding_all rfl]
    exact isPrefixOf_append_self _ _
  have hval : validate_token hmac16 (generate_secure_anonymous_token hmac16 created randomBytes) = true := by
    rw [validate_token, if_neg (fun h => h (Or.inl hpre))]
    rw [htok, hsplit]
    simp only [ne_eq, not_true_eq_false, if_false, ite_false]
    rw [hdec]
    simp only [hutf, hjson]
    simp +decide [jlookup]
  refine ⟨hval, ?_⟩
  rw [extract_token_info, if_pos hval, htok, hsplit]
  simp only [hdec, hutf, hjson]

theorem validate_generate_auth (hmac16 : Str → Str) (user_id : Str) (created : Nat)
    (randomBytes : List Nat) (hu : ∀ c ∈ user_id, payloadCharOk c = true) :
    validate_token hmac16 (generate_auth_token hmac16 user_id created randomBytes) = true ∧
    extract_token_info hmac16 (generate_auth_token hmac16 user_id created randomBytes) =
      some [("type".data, JVal.jstr "authenticated".data),
            ("user_id".data, JVal.jstr user_id),
            ("created".data, JVal.jnum created),
            ("random".data, JVal.jstr (hexEncode randomBytes))] := by
  have hr : ∀ c ∈ hexEncode randomBytes, payloadCharOk c = true := hexEncode_chars randomBytes
  obtain ⟨hnoU, hdec, hutf⟩ :=
    token_decode_chain (dumpsAuth user_id created (hexEncode randomBytes))
      (dumpsAuth_bytes user_id created (hexEncode randomBytes) hu hr)
  have hjson := jsonLoadsFlat_dumpsAuth user_id created (hexEncode randomBytes)
    (fun c hc => by
      have := (payloadCharOk_iff c).mp (hu c hc)
      exact ⟨this.2.2.1, this.2.2.2⟩)
    (fun c hc => by
      have := (payloadCharOk_iff c).mp (hr c hc)
      exact ⟨this.2.2.1, this.2.2.2⟩)
  have htok : generate_auth_token hmac16 user_id created randomBytes =
      "auth".data ++ '_' ::
        (b64urlEncodeNoPad (utf8Encode (dumpsAuth user_id created (hexEncode randomBytes))) ++ '_' ::
          hmac16 (b64urlEncodeNoPad (utf8Encode (dumpsAuth user_id created (hexEncode randomBytes))))) := by
    with_unfolding_all rfl
  have hsplit := pySplit2_three "auth".data
    (b64urlEncodeNoPad (utf8Encode (dumpsAuth user_id created (hexEncode randomBytes))))
    (hmac16 (b64urlEncodeNoPad (utf8Encode (dumpsAuth user_id created (hexEncode randomBytes)))))
    (by decide) hnoU
  have hpre : "auth_".data.isPrefixOf
      (generate_auth_token hmac16 user_id created randomBytes) = true := by
    rw [show generate_auth_token hmac16 user_id created randomBytes =
      "auth_".data ++
        (b64urlEncodeNoPad (utf8Encode (dumpsAuth user_id created (hexEncode randomBytes))) ++ '_' ::
          hmac16 (b64urlEncodeNoPad (utf8Encode (dumpsAuth user_id created (hexEncode randomBytes)))))
      from by with_unfolding_all rfl]
    exact isPrefixOf_append_self _ _
  have hval : validate_token hmac16 (generate_auth_token hmac16 user_id created randomBytes) = true := by
    rw [validate_token, if_neg (fun h => h (Or.inr hpre))]
    rw [htok, hsplit]
    simp only [ne_eq, not_true_eq_false, if_false, ite_false]
    rw [hdec]
    simp only [hutf, hjson]
    simp +decide [jlookup]
  refine ⟨hval, ?_⟩
  rw [extract_token_info, if_pos hval, htok, hsplit]
  simp only [hdec, hutf, hjson]

theorem validate_auth_token_generate (hmac16 : Str → Str) (user_id : Str) (created : Nat)
    (randomBytes : List Nat) (hu : ∀ c ∈ user_id, payloadCharOk c = true) :
    validate_auth_token hmac16 (generate_auth_token hmac16 user_id created randomBytes) =
      some user_id := by
  have hr : ∀ c ∈ hexEncode randomBytes, payloadCharOk c = true := hexEncode_chars randomBytes
  obtain ⟨hnoU, hdec, hutf⟩ :=
    token_decode_chain (dumpsAuth user_id created (hexEncode randomBytes))
      (dumpsAuth_bytes user_id created (hexEncode randomBytes) hu hr)
  have hjson := jsonLoadsFlat_dumpsAuth user_id created (hexEncode randomBytes)
    (fun c hc => by
      have := (payloadCharOk_iff c).mp (hu c hc)
      exact ⟨this.2.2.1, this.2.2.2⟩)
    (fun c hc => by
      have := (payloadCharOk_iff c).mp (hr c hc)
      exact ⟨this.2.2.1, this.2.2.2⟩)
  have htok : generate_auth_token hmac16 user_id created randomBytes =
      "auth".data ++ '_' ::
        (b64urlEncodeNoPad (utf8Encode (dumpsAuth user_id created (hexEncode randomBytes))) ++ '_' ::
          hmac16 (b64urlEncodeNoPad (utf8Encode (dumpsAuth user_id created (hexEncode randomBytes))))) := by
    with_unfolding_all rfl
  have hsplit := pySplit2_three "auth".data
    (b64urlEncodeNoPad (utf8Encode (dumpsAuth user_id created (hexEncode randomBytes))))
    (hmac16 (b64urlEncodeNoPad (utf8Encode (dumpsAuth user_id created (hexEncode randomBytes)))))
    (by decide) hnoU
  have hpre : "auth_".data.isPrefixOf
      (generate_auth_token hmac16 user_id created randomBytes) = true := by
    rw [show generate_auth_token hmac16 user_id created randomBytes =
      "auth_".data ++
        (b64urlEncodeNoPad (utf8Encode (dumpsAuth user_id created (hexEncode randomBytes))) ++ '_' ::
          hmac16 (b64urlEncodeNoPad (utf8Encode (dumpsAuth user_id created (hexEncode randomBytes)))))
      from by with_unfolding_all rfl]
    exact isPrefixOf_append_self _ _
  rw [validate_auth_token, if_neg (fun h => h hpre)]
  rw [htok, hsplit]
  simp only [ne_eq, not_true_eq_false, if_false, ite_false]
  rw [hdec]
  simp only [hutf, hjson]
  simp +decide [jlookup]

theorem find_updateUser_pred (uid : Str) (f : DbUser → DbUser) (p : DbUser → Bool)
    (hp : ∀ u, p (f u) = p u) : ∀ users : List DbUser,
    (updateUser users uid f).find? p =
      (users.find? p).map (fun u => if u.id = uid then f u else u)
  | [] => rfl
  | u :: users => by
    by_cases hid : u.id = uid
    · by_cases hu : p u = true
      · simp [updateUser, hid, List.find?_cons, hp u, hu]
      · have hpu : p u = false := by simp at hu; exact hu
        have hfu : p (if u.id = uid then f u else u) = false := by simp [hid, hp u, hpu]
        rw [show updateUser (u :: users) uid f =
            (if u.id = uid then f u else u) :: updateUser users uid f from by
          simp [updateUser]]
        rw [List.find?_cons_of_neg _ (by simp [hfu]), List.find?_cons_of_neg _ (by simp [hpu])]
        exact find_updateUser_pred uid f p hp users
    · by_cases hu : p u = true
      · simp [updateUser, hid, List.find?_cons, hu]
      · have hpu : p u = false := by simp at hu; exact hu
        rw [show updateUser (u :: users) uid f =
            (if u.id = uid then f u else u) :: updateUser users uid f from by
          simp [updateUser]]
        rw [if_neg hid]
        rw [List.find?_cons_of_neg _ (by simp [hpu]), List.find?_cons_of_neg _ (by simp [hpu])]
        exact find_updateUser_pred uid f p hp users

theorem find_updateUser_id (users : List DbUser) (uid : Str) (f : DbUser → DbUser)
    (hf : ∀ u, (f u).id = u.id) :
    (updateUser users uid f).find? (fun u => decide (u.id = uid)) =
      ((users.find? (fun u => decide (u.id = uid))).map f) := by
  rw [find_updateUser_pred uid f _ (fun u => by simp [hf u])]
  cases h : users.find? (fun u => decide (u.id = uid)) with
  | none => rfl
  | some u =>
    have := List.find?_some h
    simp at this
    simp [this]

theorem sort_append_fresh (a : HistoryEntry) : ∀ l : List HistoryEntry,
    (∀ b ∈ l, b.timestamp < a.timestamp) →
    List.insertionSort entryAfter (l ++ [a]) = a :: List.insertionSort entryAfter l
  | [], _ => rfl
  | c :: l, h => by
    have hc : ¬ entryAfter c a := by
      have := h c (by simp)
      simp only [entryAfter]
      omega
    have ih := sort_append_fresh a l (fun b hb => h b (by simp [hb]))
    simp only [List.cons_append, List.insertionSort, List.append_eq, ih,
      List.orderedInsert, if_neg hc]

/-- C1: every anonymous token from `generate_secure_anonymous_token` and every
authenticated token from `generate_auth_token` passes `validate_token`, and
`extract_token_info` recovers exactly the serialized payload (type, created,
nonce, and `user_id` when present). -/
theorem C1_token_roundtrip (hmac16 : Str → Str) (created created2 : Nat)
    (randomBytes randomBytes2 : List Nat) (user_id : Str)
    (hu : ∀ c ∈ user_id, payloadCharOk c = true) :
    validate_token hmac16 (generate_secure_anonymous_token hmac16 created randomBytes) = true ∧
    extract_token_info hmac16 (generate_secure_anonymous_token hmac16 created randomBytes) =
      some [("type".data, JVal.jstr "anonymous".data),
            ("created".data, JVal.jnum created),
            ("random".data, JVal.jstr (b64stdEncodePad randomBytes))] ∧
    validate_token hmac16 (generate_auth_token hmac16 user_id created2 randomBytes2) = true ∧
    extract_token_info hmac16 (generate_auth_token hmac16 user_id created2 randomBytes2) =
      some [("type".data, JVal.jstr "authenticated".data),
            ("user_id".data, JVal.jstr user_id),
            ("created".data, JVal.jnum created2),
            ("random".data, JVal.jstr (hexEncode randomBytes2))] := by
  obtain ⟨h1, h2⟩ := validate_generate_anon hmac16 created randomBytes
  obtain ⟨h3, h4⟩ := validate_generate_auth hmac16 user_id created2 randomBytes2 hu
  exact ⟨h1, h2, h3, h4⟩

theorem C1_token_roundtrip_witness :
    (∀ c ∈ "user_0102".data, payloadCharOk c = true) ∧
    (validate_token hmacConst
        (generate_secure_anonymous_token hmacConst 1700000000 (List.replicate 32 7)) = true ∧
      extract_token_info hmacConst
          (generate_secure_anonymous_token hmacConst 1700000000 (List.replicate 32 7)) =
        some [("type".data, JVal.jstr "anonymous".data),
              ("created".data, JVal.jnum 1700000000),
              ("random".data, JVal.jstr (b64stdEncodePad (List.replicate 32 7)))] ∧
      validate_token hmacConst
          (generate_auth_token hmacConst "user_0102".data 1700000100 (List.replicate 16 9)) = true ∧
      extract_token_info hmacConst
          (generate_auth_token hmacConst "user_0102".data 1700000100 (List.replicate 16 9)) =
        some [("type".data, JVal.jstr "authenticated".data),
              ("user_id".data, JVal.jstr "user_0102".data),
              ("created".data, JVal.jnum 1700000100),
              ("random".data, JVal.jstr (hexEncode (List.replicate 16 9)))]) :=
  ⟨by decide, C1_token_roundtrip hmacConst 1700000000 1700000100
    (List.replicate 32 7) (List.replicate 16 9) "user_0102".data (by decide)⟩

/-- C5 (amended): `register_user` always leaves the new row persisted once the
first commit has run.  On success the persisted row is complete (email,
password hash and issued-token hash all set); when the second commit fails the
row persists with an empty `token_hash` — a partial state, so the operation is
terminal but not atomic. -/
theorem C5_register_persists_row (sha256hex hmac16 : Str → Str) (db : Db)
    (email password : Str) (name : Option Str) (userIdBytes saltBytes tokenRandomBytes : List Nat)
    (now : Nat) (secondCommitFails : Bool)
    (hnew : db.users.find? (fun u => decide (u.email = some (pyLower email))) = none)
    (hlen : 6 ≤ password.length) :
    (secondCommitFails = false →
      ∃ tok,
        register_user sha256hex hmac16 db email password name userIdBytes saltBytes
            tokenRandomBytes now secondCommitFails =
          ({ db with users := db.users ++
              [{ id := "user_".data ++ hexEncode userIdBytes,
                 token_hash := sha256hex tok, is_anonymous := false,
                 created_at := now, last_active := now,
                 email := some (pyLower email),
                 password_hash := some (hash_password sha256hex password (hexEncode saltBytes)),
                 name := name, email_verified := false }] },
           (true, "Account created successfully".data, some tok))) ∧
    (secondCommitFails = true →
      register_user sha256hex hmac16 db email password name userIdBytes saltBytes
          tokenRandomBytes now secondCommitFails =
        ({ db with users := db.users ++
            [{ id := "user_".data ++ hexEncode userIdBytes,
               token_hash := [], is_anonymous := false,
               created_at := now, last_active := now,
               email := some (pyLower email),
               password_hash := some (hash_password sha256hex password (hexEncode saltBytes)),
               name := name, email_verified := false }] },
         (false, "Registration failed: storage error".data, none))) := by
  constructor
  · rintro rfl
    refine ⟨generate_auth_token hmac16 ("user_".data ++ hexEncode userIdBytes) now
      tokenRandomBytes, ?_⟩
    rw [register_user, hnew]
    rw [if_neg (by omega)]
    rfl
  · rintro rfl
    rw [register_user, hnew]
    rw [if_neg (by omega)]
    rfl

theorem C5_register_persists_row_witness :
    ((Db.users {} ).find?
        (fun u => decide (u.email = some (pyLower "a@b.c".data))) = none ∧
      6 ≤ "secret".data.length) ∧
    ((false = false →
      ∃ tok,
        register_user shaTag hmacConst {} "a@b.c".data "secret".data none [1] [2] [3] 100 false =
          ({ ({} : Db) with users := ({} : Db).users ++
              [{ id := "user_".data ++ hexEncode [1],
                 token_hash := shaTag tok, is_anonymous := false,
                 created_at := 100, last_active := 100,
                 email := some (pyLower "a@b.c".data),
                 password_hash := some (hash_password shaTag "secret".data (hexEncode [2])),
                 name := none, email_verified := false }] },
           (true, "Account created successfully".data, some tok))) ∧
    (false = true →
      register_user shaTag hmacConst {} "a@b.c".data "secret".data none [1] [2] [3] 100 false =
        ({ ({} : Db) with users := ({} : Db).users ++
            [{ id := "user_".data ++ hexEncode [1],
               token_hash := [], is_anonymous := false,
               created_at := 100, last_active := 100,
               email := some (pyLower "a@b.c".data),
               password_hash := some (hash_password shaTag "secret".data (hexEncode [2])),
               name := none, email_verified := false }] },
         (false, "Registration failed: storage error".data, none)))) :=
  ⟨⟨by decide, by decide⟩,
    C5_register_persists_row shaTag hmacConst {} "a@b.c".data "secret".data none
      [1] [2] [3] 100 false (by decide) (by decide)⟩

/-- C3 (amended): a successful login rotates the stored hash — every row with
the user's id ends with `token_hash` equal to the hash of the newly issued
token — but an authenticated token issued earlier is NOT invalidated:
`get_user_by_token` resolves it by its embedded `user_id`, which still matches. -/
theorem C3_login_rotates_hash_old_token_resolves (sha256hex hmac16 : Str → Str) (db : Db)
    (email password ph : Str) (tokenRandomBytes : List Nat) (now : Nat) (user : DbUser)
    (hfind : db.users.find? (fun u => decide (u.email = some (pyLower email))) = some user)
    (hanon : user.is_anonymous = false)
    (hph : user.password_hash = some ph)
    (hverify : verify_password sha256hex password ph = true)
    (hfindid : db.users.find? (fun u => decide (u.id = user.id)) = some user)
    (huid : user.id ≠ []) :
    (login_user sha256hex hmac16 db email password tokenRandomBytes now).2 =
      (true, "Login successful".data,
        some (generate_auth_token hmac16 user.id now tokenRandomBytes)) ∧
    (∀ u' ∈ (login_user sha256hex hmac16 db email password tokenRandomBytes now).1.users,
      u'.id = user.id →
        u'.token_hash = sha256hex (generate_auth_token hmac16 user.id now tokenRandomBytes)) ∧
    (∀ oldTok, validate_auth_token hmac16 oldTok = some user.id →
      ∃ u', get_user_by_token sha256hex hmac16
          (login_user sha256hex hmac16 db email password tokenRandomBytes now).1 oldTok =
            some u' ∧
        u'.id = user.id ∧
        u'.token_hash = sha256hex (generate_auth_token hmac16 user.id now tokenRandomBytes)) := by
  have hlogin : login_user sha256hex hmac16 db email password tokenRandomBytes now =
      ({ db with users := (updateUser db.users user.id (fun u => { u with
            token_hash := sha256hex (generate_auth_token hmac16 user.id now tokenRandomBytes),
            last_active := user.last_active })) },
       (true, "Login successful".data,
        some (generate_auth_token hmac16 user.id now tokenRandomBytes))) := by
    rw [login_user, hfind]
    simp only [hanon, Bool.false_eq_true, if_false, ite_false]
    rw [hph]
    simp only [hverify, not_true_eq_false, if_false, ite_false, hfindid, Option.getD_some]
  rw [hlogin]
  refine ⟨rfl, ?_, ?_⟩
  · intro u' hmem heq
    simp only [updateUser, List.mem_map] at hmem
    obtain ⟨v, hv, hvu⟩ := hmem
    by_cases hid : v.id = user.id
    · rw [if_pos hid] at hvu
      rw [← hvu]
    · rw [if_neg hid] at hvu
      rw [← hvu] at heq
      exact absurd heq hid
  · intro oldTok hv
    rw [get_user_by_token, hv]
    simp only [ne_eq, huid, not_false_eq_true, if_true, ite_true]
    rw [find_updateUser_id db.users user.id (fun u => { u with
          token_hash := sha256hex (generate_auth_token hmac16 user.id now tokenRandomBytes),
          last_active := user.last_active }) (fun u => rfl), hfindid]
    simp only [Option.map_some']
    simp only [hanon, Bool.not_false, Bool.false_eq_true, not_false_eq_true, if_true, ite_true]
    exact ⟨_, rfl, rfl, rfl⟩

theorem C3_login_rotates_hash_old_token_resolves_witness :
    (dbReg.users.find? (fun u => decide (u.email = some (pyLower "eco@example.com".data))) =
        some regUser ∧
      regUser.is_anonymous = false ∧
      regUser.password_hash = some phReg ∧
      verify_password shaTag "hunter2".data phReg = true ∧
      dbReg.users.find? (fun u => decide (u.id = regUser.id)) = some regUser ∧
      regUser.id ≠ []) ∧
    ((login_user shaTag hmacConst dbReg "eco@example.com".data "hunter2".data [9] 200).2 =
      (true, "Login successful".data,
        some (generate_auth_token hmacConst regUser.id 200 [9])) ∧
    (∀ u' ∈ (login_user shaTag hmacConst dbReg "eco@example.com".data "hunter2".data [9] 200).1.users,
      u'.id = regUser.id →
        u'.token_hash = shaTag (generate_auth_token hmacConst regUser.id 200 [9])) ∧
    (∀ oldTok, validate_auth_token hmacConst oldTok = some regUser.id →
      ∃ u', get_user_by_token shaTag hmacConst
          (login_user shaTag hmacConst dbReg "eco@example.com".data "hunter2".data [9] 200).1 oldTok =
            some u' ∧
        u'.id = regUser.id ∧
        u'.token_hash = shaTag (generate_auth_token hmacConst regUser.id 200 [9]))) :=
  ⟨⟨by with_unfolding_all decide, by with_unfolding_all decide, by with_unfolding_all decide,
    by with_unfolding_all decide, by with_unfolding_all decide, by with_unfolding_all decide⟩,
   C3_login_rotates_hash_old_token_resolves shaTag hmacConst dbReg "eco@example.com".data
     "hunter2".data phReg [9] 200 regUser (by with_unfolding_all decide)
     (by with_unfolding_all decide) (by with_unfolding_all decide) (by with_unfolding_all decide)
     (by with_unfolding_all decide) (by with_unfolding_all decide)⟩

/-- C8: two `get_or_create_user` calls with the same valid anonymous token
yield the same user id — the second call finds, via the stored token hash,
the row the first call created or touched. -/
theorem C8_get_or_create_idempotent (sha256hex hmac16 : Str → Str) (db : Db)
    (user_token : Str) (fresh1 fresh2 : List Nat) (now1 now2 : Nat) (db1 : Db) (u1 : DbUser)
    (h1 : get_or_create_user sha256hex hmac16 db user_token fresh1 now1 = some (db1, u1)) :
    ∃ db2 u2, get_or_create_user sha256hex hmac16 db1 user_token fresh2 now2 = some (db2, u2) ∧
      u2.id = u1.id := by
  rw [get_or_create_user] at h1
  by_cases hval : validate_token hmac16 user_token = true
  case neg => rw [if_pos (by simpa using hval)] at h1; exact absurd h1 (by simp)
  rw [if_neg (by simpa using hval)] at h1
  simp only [] at h1
  cases hfind : db.users.find?
      (fun u => decide (u.token_hash = sha256hex user_token)) with
  | none =>
    rw [hfind] at h1
    injection h1 with h1
    injection h1 with hdb hu
    subst hdb hu
    rw [get_or_create_user, if_neg (by simpa using hval)]
    simp only []
    have hfind2 : (db.users ++
        [({ id := "user_".data ++ hexEncode fresh1, token_hash := sha256hex user_token,
            is_anonymous := true, created_at := now1, last_active := now1 } : DbUser)]).find?
          (fun u => decide (u.token_hash = sha256hex user_token)) =
        some { id := "user_".data ++ hexEncode fresh1, token_hash := sha256hex user_token,
               is_anonymous := true, created_at := now1, last_active := now1 } := by
      rw [List.find?_append, hfind]
      simp
    rw [hfind2]
    exact ⟨_, _, rfl, rfl⟩
  | some user =>
    rw [hfind] at h1
    injection h1 with h1
    injection h1 with hdb hu
    subst hdb hu
    rw [get_or_create_user, if_neg (by simpa using hval)]
    simp only []
    have hpres : ∀ u : DbUser,
        (decide (({ u with last_active := now1 } : DbUser).token_hash = sha256hex user_token)) =
          decide (u.token_hash = sha256hex user_token) := fun u => rfl
    have hfind2 := find_updateUser_pred user.id (fun u => { u with last_active := now1 })
      (fun u => decide (u.token_hash = sha256hex user_token)) hpres db.users
    rw [hfind] at hfind2
    simp only [Option.map_some'] at hfind2
    rw [hfind2]
    by_cases hid : user.id = user.id
    · simp only [hid, if_true, ite_true]
      exact ⟨_, _, rfl, rfl⟩
    · exact absurd rfl hid

theorem C8_get_or_create_idempotent_witness :
    (get_or_create_user shaTag hmacConst {} anonTok [1, 2, 3, 4, 5, 6] 100 =
        some (gocDb, gocUser)) ∧
    (∃ db2 u2, get_or_create_user shaTag hmacConst gocDb anonTok [7, 8, 9, 10, 11, 12] 200 =
        some (db2, u2) ∧ u2.id = gocUser.id) :=
  ⟨by with_unfolding_all decide,
   C8_get_or_create_idempotent shaTag hmacConst {} anonTok [1, 2, 3, 4, 5, 6]
     [7, 8, 9, 10, 11, 12] 100 200 gocDb gocUser (by with_unfolding_all decide)⟩

/-- C7: `save_analysis` is a no-op returning `none` whenever the presenting
identity is not an authenticated user; for an authenticated user's token it
returns the entry id and the saved entry is retrievable through
`dbGetHistory`. -/
theorem C7_save_analysis_gating (sha256hex hmac16 : Str → Str) (db : Db)
    (user_token query : Str) (analysis : ProductAnalysis) (atype : AnalysisType)
    (flag : Bool) (entry_id : Str) (now : Nat) (uid : Str) (user : DbUser)
    (hval : validate_auth_token hmac16 user_token = some uid)
    (huid : uid ≠ [])
    (hfind : db.users.find? (fun u => decide (u.id = uid)) = some user)
    (hanon : user.is_anonymous = false)
    (hfresh : ∀ e ∈ db.history_entries, e.timestamp < now) :
    (∀ (db0 : Db) (token0 : Str), is_authenticated_user sha256hex hmac16 db0 token0 = false →
      save_analysis sha256hex hmac16 db0 token0 query analysis atype flag entry_id now =
        (db0, none)) ∧
    (save_analysis sha256hex hmac16 db user_token query analysis atype flag entry_id now).2 =
      some entry_id ∧
    (∃ e ∈ (dbGetHistory sha256hex hmac16
        (save_analysis sha256hex hmac16 db user_token query analysis atype flag entry_id now).1
        user_token none).entries, e.id = entry_id ∧ e.query = query ∧ e.analysis = analysis) := by
  have huser_id : user.id = uid := by
    have := List.find?_some hfind
    simpa using this
  have hget : get_user_by_token sha256hex hmac16 db user_token = some user := by
    rw [get_user_by_token, hval]
    simp only [ne_eq, huid, not_false_eq_true, if_true, ite_true, hfind]
    simp only [hanon, Bool.false_eq_true, not_false_eq_true, if_true, ite_true]
  have hauth : is_authenticated_user sha256hex hmac16 db user_token = true := by
    rw [is_authenticated_user, hget]
    simp [hanon]
  have hsave : save_analysis sha256hex hmac16 db user_token query analysis atype flag
      entry_id now =
      ({ db with
          users := (updateUser db.users user.id (fun u => { u with last_active := now })),
          history_entries := db.history_entries ++
            [({ id := entry_id, timestamp := now, analysis_type := atype, query := query,
                analysis := analysis, user_session := some user.id,
                is_comparison_analysis := flag } : HistoryEntry)] },
       some entry_id) := by
    rw [save_analysis]
    simp only [hauth, not_true_eq_false, if_false, ite_false, hget]
  have hfind2 : (updateUser db.users user.id (fun u => { u with last_active := now })).find?
      (fun u => decide (u.id = uid)) = some ({ user with last_active := now }) := by
    rw [find_updateUser_pred user.id (fun u => { u with last_active := now })
      (fun u => decide (u.id = uid)) (fun u => rfl) db.users]
    rw [hfind]
    simp
  have hget2 : get_user_by_token sha256hex hmac16
      ({ db with
          users := (updateUser db.users user.id (fun u => { u with last_active := now })),
          history_entries := db.history_entries ++
            [({ id := entry_id, timestamp := now, analysis_type := atype, query := query,
                analysis := analysis, user_session := some user.id,
                is_comparison_analysis := flag } : HistoryEntry)] } : Db) user_token =
      some ({ user with last_active := now }) := by
    rw [get_user_by_token, hval]
    simp only [ne_eq, huid, not_false_eq_true, if_true, ite_true]
    rw [hfind2]
    simp only [hanon, Bool.false_eq_true, not_false_eq_true, if_true, ite_true]
  have hauth2 : is_authenticated_user sha256hex hmac16
      ({ db with
          users := (updateUser db.users user.id (fun u => { u with last_active := now })),
          history_entries := db.history_entries ++
            [({ id := entry_id, timestamp := now, analysis_type := atype, query := query,
                analysis := analysis, user_session := some user.id,
                is_comparison_analysis := flag } : HistoryEntry)] } : Db) user_token = true := by
    rw [is_authenticated_user, hget2]
    simp [hanon]
  refine ⟨?_, ?_, ?_⟩
  · intro db0 token0 h0
    rw [save_analysis]
    simp [h0]
  · rw [hsave]
  · rw [hsave]
    rw [dbGetHistory]
    simp only [hauth2, not_true_eq_false, if_false, ite_false, hget2]
    rw [List.filter_append]
    rw [show (List.filter
        (fun e => decide (e.user_session = some ({ user with last_active := now } : DbUser).id))
        [({ id := entry_id, timestamp := now, analysis_type := atype, query := query,
            analysis := analysis, user_session := some user.id,
            is_comparison_analysis := flag } : HistoryEntry)]) =
        [({ id := entry_id, timestamp := now, analysis_type := atype, query := query,
            analysis := analysis, user_session := some user.id,
            is_comparison_analysis := flag } : HistoryEntry)] from by simp]
    rw [sort_append_fresh _ _ (fun b hb => hfresh b (List.mem_of_mem_filter hb))]
    simp only [List.drop_zero, List.take_succ_cons]
    exact ⟨_, List.mem_cons_self _ _, rfl, rfl, rfl⟩

theorem C7_save_analysis_gating_witness :
    (validate_auth_token hmacConst tokLogin = some uidReg ∧
      uidReg ≠ [] ∧
      dbLogin.users.find? (fun u => decide (u.id = uidReg)) = some loginUser ∧
      loginUser.is_anonymous = false ∧
      (∀ e ∈ dbLogin.history_entries, e.timestamp < 300)) ∧
    ((∀ (db0 : Db) (token0 : Str), is_authenticated_user shaTag hmacConst db0 token0 = false →
      save_analysis shaTag hmacConst db0 token0 "q".data (mkPA 50 (some "A".data))
          AnalysisType.product_search false "e1".data 300 = (db0, none)) ∧
    (save_analysis shaTag hmacConst dbLogin tokLogin "q".data (mkPA 50 (some "A".data))
        AnalysisType.product_search false "e1".data 300).2 = some "e1".data ∧
    (∃ e ∈ (dbGetHistory shaTag hmacConst
        (save_analysis shaTag hmacConst dbLogin tokLogin "q".data (mkPA 50 (some "A".data))
          AnalysisType.product_search false "e1".data 300).1 tokLogin none).entries,
      e.id = "e1".data ∧ e.query = "q".data ∧ e.analysis = mkPA 50 (some "A".data))) :=
  ⟨⟨by with_unfolding_all decide, by with_unfolding_all decide, by with_unfolding_all decide,
    by with_unfolding_all decide, by with_unfolding_all decide⟩,
   C7_save_analysis_gating shaTag hmacConst dbLogin tokLogin "q".data (mkPA 50 (some "A".data))
     AnalysisType.product_search false "e1".data 300 uidReg loginUser
     (by with_unfolding_all decide) (by with_unfolding_all decide) (by with_unfolding_all decide)
     (by with_unfolding_all decide) (by with_unfolding_all decide)⟩

end EcoTrace
